import Mathlib

/-!
Verification of the Be-A-Hero-Studio persistence and playback core.

This file gives a shallow embedding of the project persistence subsystem
(`src/main/index.ts`) and the timeline playback cursor
(`src/renderer/core/timelinePlayer.ts`), and proves the specified
properties about it.  JavaScript strings are `String`, JavaScript
numbers are `Int` (the program only ever uses integral values for the
fields that matter here), file contents that the program parses as JSON
are modelled by a `Json` value, and the filesystem of each operation is
modelled by the explicit state the operation touches.
-/

namespace BeAHero

/-- A JSON value as produced by `JSON.parse`.  Objects keep their key
order, as JavaScript objects do. -/
inductive Json where
  | null : Json
  | bool : Bool → Json
  | num : Int → Json
  | str : String → Json
  | arr : List Json → Json
  | obj : List (String × Json) → Json

namespace Json

/-- JavaScript property access `j[key]`: on an object, the value of the
key (JS object keys are unique; first match); otherwise `undefined`,
modelled as `none`. -/
def get : Json → String → Option Json
  | obj fields, key => (fields.find? (fun kv => kv.1 = key)).map (·.2)
  | _, _ => none

/-- JavaScript truthiness of a value. -/
def truthy : Json → Bool
  | null => false
  | bool b => b
  | num n => n ≠ 0
  | str s => s ≠ ""
  | arr _ => true
  | obj _ => true

/-- `typeof x === 'object'`: true for `null`, arrays and objects. -/
def isObjectType : Json → Bool
  | null => true
  | arr _ => true
  | obj _ => true
  | _ => false

/-- `Array.isArray`. -/
def isArray : Json → Bool
  | arr _ => true
  | _ => false

/-- `typeof x === 'number'`. -/
def isNumber : Json → Bool
  | num _ => true
  | _ => false

end Json

/-- `Array.isArray(x)` applied to a possibly-`undefined` property. -/
def optIsArray : Option Json → Bool
  | some j => j.isArray
  | none => false

/-- Truthiness of a possibly-`undefined` property (`!!x`). -/
def optTruthy : Option Json → Bool
  | some j => j.truthy
  | none => false

/-- `typeof x === 'object'` for a possibly-`undefined` property. -/
def optIsObjectType : Option Json → Bool
  | some j => j.isObjectType
  | none => false

/-- `typeof x === 'number'` for a possibly-`undefined` property. -/
def optIsNumber : Option Json → Bool
  | some j => j.isNumber
  | none => false

/-- `isManifestLike` from `src/main/index.ts`: the parsed value is a
truthy object whose `sections` is an array, whose `assetRegistry` is a
truthy object, and whose `schemaVersion` is a number. -/
def isManifestLike (input : Json) : Bool :=
  if ¬(input.truthy ∧ input.isObjectType) then false
  else
    optIsArray (input.get "sections") &&
    optTruthy (input.get "assetRegistry") &&
    optIsObjectType (input.get "assetRegistry") &&
    optIsNumber (input.get "schemaVersion")

/-! ## Recovery selector (`project:recover` handler) -/

/-- One file of the autosave directory as the `project:recover` handler
sees it: its name, the `mtimeMs` from `fs.stat`, and its content
modelled by the outcome of `JSON.parse` on it (`none` when parsing
throws). -/
structure AutosaveFile where
  name : String
  mtimeMs : Int
  parsed : Option Json

/-- The distinct failures of the `project:recover` handler. -/
inductive RecoverError where
  /-- `fs.readdir` rejects with ENOENT: the autosave directory is
  missing, and the handler lets the rejection propagate. -/
  | enoentReaddir : RecoverError
  /-- `Error('No autosave files found for recovery')`. -/
  | noAutosaveFiles : RecoverError
  /-- `Error('No valid autosave snapshot found for recovery')`. -/
  | noValidSnapshot : RecoverError
  deriving DecidableEq

/-- JavaScript `s.startsWith(p)`, modelled on the character sequence. -/
def strStartsWith (s p : String) : Bool :=
  p.data.isPrefixOf s.data

/-- JavaScript `s.endsWith(p)`, modelled on the character sequence. -/
def strEndsWith (s p : String) : Bool :=
  p.data.isSuffixOf s.data

/-- The candidate filter of the handler:
`name.startsWith('autosave_') && name.endsWith('.json')`. -/
def isCandidateName (name : String) : Bool :=
  strStartsWith name "autosave_" && strEndsWith name ".json"

/-- The sort order installed by
`filesWithTimes.sort((a, b) => b.mtimeMs - a.mtimeMs)`:
`a` comes before `b` when the comparator is nonpositive, i.e. when
`b.mtimeMs ≤ a.mtimeMs` (newest first). -/
def newerFirst (a b : AutosaveFile) : Prop :=
  b.mtimeMs ≤ a.mtimeMs

instance : DecidableRel newerFirst := fun a b =>
  inferInstanceAs (Decidable (b.mtimeMs ≤ a.mtimeMs))

/-- The body of the scan-loop `try` block in one step: a candidate is
accepted exactly when its content parses (`JSON.parse` does not throw)
and `isManifestLike` holds of the parsed value; acceptance yields the
parsed manifest. -/
def candidateValid (f : AutosaveFile) : Option Json :=
  match f.parsed with
  | none => none
  | some j => if isManifestLike j then some j else none

/-- The scan loop of the handler: walk the (already sorted) candidates,
return the first accepted one together with its path, and throw
`'No valid autosave snapshot found for recovery'` when the loop
finishes without accepting any. -/
def scanCandidates : List AutosaveFile → Except RecoverError (Json × String)
  | [] => .error .noValidSnapshot
  | f :: rest =>
    match candidateValid f with
    | some j => .ok (j, f.name)
    | none => scanCandidates rest

/-- The `project:recover` handler.  `dir` is the autosave directory:
`none` when the directory does not exist (so `fs.readdir` rejects),
otherwise the list of its files.  The second component of the result is
the autosave directory after the call: the handler never unlinks a
file, so it is the unchanged listing. -/
def recover (dir : Option (List AutosaveFile)) :
    Except RecoverError (Json × String) × Option (List AutosaveFile) :=
  match dir with
  | none => (.error .enoentReaddir, none)
  | some files =>
    let candidates := files.filter (fun f => isCandidateName f.name)
    if candidates.isEmpty then (.error .noAutosaveFiles, some files)
    else (scanCandidates (List.insertionSort newerFirst candidates), some files)

instance : IsTotal AutosaveFile newerFirst :=
  ⟨fun a b => le_total b.mtimeMs a.mtimeMs⟩

instance : IsTrans AutosaveFile newerFirst :=
  ⟨fun _ _ _ hab hbc => le_trans hbc hab⟩

/-- A structurally valid manifest JSON value (array `sections`, object
`assetRegistry`, numeric `schemaVersion`). -/
def sampleManifestJson (version : Int) : Json :=
  Json.obj
    [("schemaVersion", Json.num version),
     ("sections", Json.arr []),
     ("assetRegistry", Json.obj [])]

/-- An autosave directory with mtimes T1 < T2 < T3 where T3's file is
malformed JSON and the two others are valid. -/
def sampleAutosaveDir : List AutosaveFile :=
  [⟨"autosave_002.json", 1, some (sampleManifestJson 1)⟩,
   ⟨"autosave_latest.json", 3, none⟩,
   ⟨"autosave_001.json", 2, some (sampleManifestJson 2)⟩]

/-! ## Autosave ring buffer (`project:autosave` handler) -/

/-- The autosave directory as the `project:autosave` handler touches
it: `autosave_latest.json` plus the numbered slot files
`autosave_001.json` … `autosave_010.json` (`slot i` is the content of
`autosave_<i, zero-padded>.json`; a slot index with no file maps to
`none`). -/
structure AutosaveDir where
  latest : Option String
  slot : Nat → Option String

/-- An initially empty autosave directory. -/
def emptyAutosaveDir : AutosaveDir := ⟨none, fun _ => none⟩

/-- One `fs.rename(from, to)` between numbered slot files, tolerating a
missing source (`ENOENT`) as a no-op, exactly as the rotation loop's
`try`/`catch` does. -/
def renameSlot (d : AutosaveDir) (src dst : Nat) : AutosaveDir :=
  match d.slot src with
  | none => d
  | some content =>
    { d with
      slot := fun i =>
        if i = dst then some content else if i = src then none else d.slot i }

/-- The rotation loop of the handler:
`for (let index = 10; index >= 2; index -= 1)` rename slot `index − 1`
onto slot `index`. -/
def rotateSlots (d : AutosaveDir) : AutosaveDir :=
  [10, 9, 8, 7, 6, 5, 4, 3, 2].foldl (fun acc idx => renameSlot acc (idx - 1) idx) d

/-- One `project:autosave` call with the already-serialized payload:
atomically write `autosave_latest.json`, rotate the ring, then
atomically write the now-vacated slot 1 with the same payload. -/
def autosaveStep (d : AutosaveDir) (payload : String) : AutosaveDir :=
  let afterLatest : AutosaveDir := { d with latest := some payload }
  let rotated := rotateSlots afterLatest
  { rotated with slot := fun i => if i = 1 then some payload else rotated.slot i }

/-- `N` consecutive `project:autosave` calls, payloads given oldest
first. -/
def autosaveRun (d : AutosaveDir) (payloads : List String) : AutosaveDir :=
  payloads.foldl autosaveStep d

/-! ## Project manifest data model (`src/renderer/types/domain.ts`) -/

/-- `AssetMeta`. -/
structure AssetMeta where
  ext : String
  mime : String
  originalFileName : String
  size : Int
  hash : String
  deriving DecidableEq

/-- `MusicItem`. -/
structure MusicItem where
  id : String
  assetId : String
  label : String
  volume : Int
  loop : Bool
  deriving DecidableEq

/-- `DialogueItem`. -/
structure DialogueItem where
  id : String
  assetId : String
  label : String
  volume : Int
  deriving DecidableEq

/-- `DialogueLine`. -/
structure DialogueLine where
  id : String
  speaker : String
  text : String
  deriving DecidableEq

/-- `MediaTile.fitMode`: `'cover' | 'contain'`. -/
inductive FitMode where
  | cover : FitMode
  | contain : FitMode
  deriving DecidableEq

/-- `MediaTile.crop`. -/
structure Crop where
  x : Int
  y : Int
  w : Int
  h : Int
  deriving DecidableEq

/-- `MediaTile.sizePreset`: `'S' | 'M' | 'L'`. -/
inductive SizePreset where
  | s : SizePreset
  | m : SizePreset
  | l : SizePreset
  deriving DecidableEq

/-- `MediaTile`. -/
structure MediaTile where
  id : String
  assetId : String
  fitMode : FitMode
  crop : Option Crop
  sizePreset : SizePreset
  deriving DecidableEq

/-- `SlideItem.panDirection`: `'none'|'left'|'right'|'up'|'down'`. -/
inductive PanDirection where
  | noPan : PanDirection
  | left : PanDirection
  | right : PanDirection
  | up : PanDirection
  | down : PanDirection
  deriving DecidableEq

/-- `SlideItem` (without the discriminant field `type`, which the
tagged-union embedding carries). -/
structure SlideItem where
  id : String
  assetId : String
  label : String
  transition : String
  durationMs : Int
  panDirection : PanDirection
  dialogueItems : List DialogueItem
  dialogueLines : List DialogueLine
  deriving DecidableEq

/-- `VideoItem`. -/
structure VideoItem where
  id : String
  assetId : String
  label : String
  startTime : Int
  endTime : Option Int
  deriving DecidableEq

/-- `PageBreakItem`. -/
structure PageBreakItem where
  id : String
  title : String
  questionsText : String
  textStyle : String
  mediaGrid : List MediaTile
  deriving DecidableEq

/-- `TimelineItem`, the tagged union over `type`. -/
inductive TimelineItem where
  | slide : SlideItem → TimelineItem
  | video : VideoItem → TimelineItem
  | pageBreak : PageBreakItem → TimelineItem
  deriving DecidableEq

/-- `Section.settings`. -/
structure SectionSettings where
  defaultTransition : Option String
  idlePanDefaults : Option String
  deriving DecidableEq

/-- `Section`. -/
structure Section where
  id : String
  title : String
  order : Int
  musicItems : List MusicItem
  timeline : List TimelineItem
  settings : Option SectionSettings
  deriving DecidableEq

/-- `ProjectManifest`.  `assetRegistry` is a JavaScript object used as
a map; its (unique) keys keep insertion order, so it is an association
list. -/
structure ProjectManifest where
  schemaVersion : Int
  createdAt : String
  updatedAt : String
  sections : List Section
  assetRegistry : List (String × AssetMeta)
  deriving DecidableEq

/-! ## Reference integrity checker (`project:healthCheck` handler) and
export validation (`project:export` handler) -/

/-- JavaScript map access `manifest.assetRegistry[assetId]` (object
keys are unique, so first match). -/
def registryLookup (reg : List (String × AssetMeta)) (id : String) : Option AssetMeta :=
  (reg.find? (fun kv => kv.1 = id)).map (·.2)

/-- The on-disk name of an asset: `<assetId>.<ext>` under `assets/`. -/
def assetFileName (id ext : String) : String :=
  id ++ "." ++ ext

/-- The asset ids one timeline item contributes, in the order the
handler's loop adds them: a slide's primary asset then its dialogue
items' assets; a video's asset; a page break's media-grid tile
assets. -/
def timelineItemRefs : TimelineItem → List String
  | .slide s => s.assetId :: s.dialogueItems.map (·.assetId)
  | .video v => [v.assetId]
  | .pageBreak p => p.mediaGrid.map (·.assetId)

/-- All asset-id occurrences the handler visits, in visit order: per
section, the timeline items' references and then the section's music
items' assets. -/
def rawRefs (m : ProjectManifest) : List String :=
  m.sections.flatMap fun s =>
    s.timeline.flatMap timelineItemRefs ++ s.musicItems.map (·.assetId)

/-- `refs.add(id)` on a JavaScript `Set`: a new id goes to the back,
a known one is ignored (sets keep insertion order). -/
def addRef (acc : List String) (id : String) : List String :=
  if id ∈ acc then acc else acc ++ [id]

/-- The `refs` set after the collection loops, as the ordered list of
distinct reachable asset ids. -/
def collectRefs (m : ProjectManifest) : List String :=
  (rawRefs m).foldl addRef []

/-- The classification of one referenced id by the `healthCheck` loop
body: absent from the registry, missing backing file (`fs.stat`
throws), present but zero-length, or healthy (`none`). -/
def violationOf (m : ProjectManifest) (fs : String → Option Int) (id : String) :
    Option String :=
  match registryLookup m.assetRegistry id with
  | none => some (id ++ ":missing-registry-entry")
  | some meta =>
    match fs (assetFileName id meta.ext) with
    | none => some (id ++ ":missing-file")
    | some size => if size ≤ 0 then some (id ++ ":empty-file") else none

/-- `missing.push(v)` for an optional violation: a violation goes to
the back, a healthy id adds nothing. -/
def pushViolation (missing : List String) (v : Option String) : List String :=
  match v with
  | some s => missing ++ [s]
  | none => missing

/-- The `project:healthCheck` handler: walk the collected references
and push one violation string per offending id onto `missing`.  `fs`
maps a file name under `assets/` to its size (`none` when `fs.stat`
rejects).  The manifest is only read, never written. -/
def healthCheck (m : ProjectManifest) (fs : String → Option Int) : List String :=
  (collectRefs m).foldl
    (fun missing id => pushViolation missing (violationOf m fs id)) []

/-- The failures of the `project:export` handler. -/
inductive ExportError where
  /-- `Export failed: missing asset registry for ${assetId}`. -/
  | missingRegistry : String → ExportError
  /-- The uncaught `fs.stat` rejection for the asset's file. -/
  | statFailed : String → ExportError
  /-- `Export failed: zero-byte asset ${assetId}`. -/
  | zeroByte : String → ExportError
  /-- `Error('Export cancelled')`. -/
  | cancelled : ExportError
  deriving DecidableEq

/-- The asset id an export error names, if any. -/
def exportErrorAsset : ExportError → Option String
  | .missingRegistry id => some id
  | .statFailed id => some id
  | .zeroByte id => some id
  | .cancelled => none

/-- The body of the export validation loop for one asset id: a missing
registry entry throws, a failing `fs.stat` propagates, a zero-byte file
throws. -/
def validateAsset (m : ProjectManifest) (fs : String → Option Int) (id : String) :
    Option ExportError :=
  match registryLookup m.assetRegistry id with
  | none => some (.missingRegistry id)
  | some meta =>
    match fs (assetFileName id meta.ext) with
    | none => some (.statFailed id)
    | some size => if size ≤ 0 then some (.zeroByte id) else none

/-- The export validation loop: check every collected reference in
order, aborting at the first failure. -/
def validateLoop (m : ProjectManifest) (fs : String → Option Int) :
    List String → Option ExportError
  | [] => none
  | id :: rest =>
    match validateAsset m fs id with
    | some e => some e
    | none => validateLoop m fs rest

/-- What the `project:export` handler returns on success. -/
structure ExportOk where
  exportPath : String
  validatedAssets : Nat
  deriving DecidableEq

/-- The `project:export` handler.  It collects references exactly as
`healthCheck` does, validates them fail-fast, and only then shows the
save dialog (`destDialog`, `none` when cancelled) and builds the
archive at the chosen destination.  The second component records
whether the save dialog was requested, the third whether an archive
file was created at the destination path. -/
def exportProject (m : ProjectManifest) (fs : String → Option Int)
    (destDialog : Option String) :
    Except ExportError ExportOk × Bool × Bool :=
  match validateLoop m fs (collectRefs m) with
  | some e => (.error e, false, false)
  | none =>
    match destDialog with
    | none => (.error .cancelled, true, false)
    | some exportPath => (.ok ⟨exportPath, (collectRefs m).length⟩, true, true)

/-- A concrete manifest: one section whose timeline holds a slide
referencing asset `a1` and a video referencing `a2`, with one music
item referencing `a3`; the registry knows `a1` and `a3` only. -/
def sampleManifest : ProjectManifest :=
  { schemaVersion := 1
    createdAt := "2026-01-01T00:00:00.000Z"
    updatedAt := "2026-01-01T00:00:00.000Z"
    sections :=
      [{ id := "s1", title := "Section 1", order := 0
         musicItems := [{ id := "m1", assetId := "a3", label := "Theme",
                          volume := 80, loop := true }]
         timeline :=
           [.slide { id := "t1", assetId := "a1", label := "Slide",
                     transition := "fade", durationMs := 3000,
                     panDirection := .noPan, dialogueItems := [], dialogueLines := [] },
            .video { id := "t2", assetId := "a2", label := "Video",
                     startTime := 0, endTime := none }]
         settings := none }]
    assetRegistry :=
      [("a1", { ext := "png", mime := "image/png", originalFileName := "a.png",
                size := 5, hash := "h1" }),
       ("a3", { ext := "mp3", mime := "audio/mpeg", originalFileName := "t.mp3",
                size := 9, hash := "h3" })] }

/-- The assets directory backing `sampleManifest`: `a1.png` has five
bytes, `a3.mp3` exists but is empty, nothing else exists. -/
def sampleAssetFs : String → Option Int :=
  fun name => if name = "a1.png" then some 5 else if name = "a3.mp3" then some 0 else none


/-! ## Atomic write (`atomicWrite`) -/

/-- The two files `atomicWrite(filePath, data)` touches: the
destination `filePath` and its sibling `filePath + '.tmp'`
(`none` = the file does not exist). -/
structure FilePairState where
  dest : Option String
  tmp : Option String

/-- The states reachable at any intermediate point of
`atomicWrite(filePath, data)` against a destination holding `old`,
crash points included: before anything happens; during or after
`fs.writeFile(tempPath, data)`, which touches only the temporary file
(an interrupted write leaves some prefix of `data` there); and after
the atomic `fs.rename(tempPath, filePath)`, which installs the
complete new content and removes the temporary file. -/
inductive AtomicWriteReachable (old : Option String) (data : String) :
    FilePairState → Prop where
  | start : AtomicWriteReachable old data ⟨old, none⟩
  | midTmpWrite (t : String) (ht : strStartsWith data t = true) :
      AtomicWriteReachable old data ⟨old, some t⟩
  | renamed : AtomicWriteReachable old data ⟨some data, none⟩


/-! ## Asset importer (`asset:import` handler) -/

/-- `path.basename`: the part of the path after the last `/`. -/
def basenameOf (p : String) : String :=
  ⟨(p.data.reverse.takeWhile (fun c => c ≠ '/')).reverse⟩

/-- Lexicographic comparison of character sequences by code point:
the model of `a.localeCompare(b) ≤ 0` for the ASCII file names the
importer compares. -/
def charListLe : List Char → List Char → Bool
  | [], _ => true
  | _ :: _, [] => false
  | a :: as, b :: bs => if a = b then charListLe as bs else a.toNat < b.toNat

/-- String comparison via `charListLe`. -/
def strLe (a b : String) : Bool :=
  charListLe a.data b.data

/-- String order as a proposition. -/
def strLeProp (a b : String) : Prop :=
  strLe a b = true

instance : DecidableRel strLeProp := fun a b =>
  inferInstanceAs (Decidable (strLe a b = true))

/-- The comparator of the `asset:import` handler:
`(a, b) => path.basename(a).localeCompare(path.basename(b))`; `a`
sorts before `b` when the comparator is nonpositive. -/
def byBasename (a b : String) : Prop :=
  strLeProp (basenameOf a) (basenameOf b)

instance : DecidableRel byBasename := fun a b =>
  inferInstanceAs (Decidable (strLeProp (basenameOf a) (basenameOf b)))

/-- `[...result.filePaths].sort(comparator)`: the selected paths,
sorted by basename. -/
def importOrder (filePaths : List String) : List String :=
  List.insertionSort byBasename filePaths

/-- The part of an imported asset record the ordering claim observes:
the fresh `assetId` (`uuid()`, supplied as `idGen` applied to the
position in the processing order) and `originalFileName`
(`path.basename(sourcePath)`).  The remaining record fields (`ext`,
`mime`, `size`, `hash`, `assetPath`) are functions of the source path
and file content and do not affect record order. -/
structure ImportedAsset where
  assetId : String
  originalFileName : String
  deriving DecidableEq

/-- The `asset:import` handler loop body: process paths in order,
one record per file, drawing the next fresh id each time. -/
def importLoop (idGen : Nat → String) : Nat → List String → List ImportedAsset
  | _, [] => []
  | n, p :: rest => ⟨idGen n, basenameOf p⟩ :: importLoop idGen (n + 1) rest

/-- The `asset:import` handler: sort the selection by basename, then
process the files in that order. -/
def importAssets (idGen : Nat → String) (filePaths : List String) :
    List ImportedAsset :=
  importLoop idGen 0 (importOrder filePaths)


/-! ## Timeline playback cursor (`src/renderer/core/timelinePlayer.ts`) -/

/-- `TimelineMode`: `'manual' | 'timer' | 'cue'`. -/
inductive TimelineMode where
  | manual : TimelineMode
  | timer : TimelineMode
  | cue : TimelineMode
  deriving DecidableEq

/-- The player status literal type. -/
inductive PlayStatus where
  | playing : PlayStatus
  | paused : PlayStatus
  | stopped : PlayStatus
  deriving DecidableEq

/-- The `TimelinePlayer` instance state.  `index` is a JavaScript
number, so an `Int` here; the class only ever stores clamped
nonnegative values in it. -/
structure TimelinePlayer where
  mode : TimelineMode
  loadedSection : Option Section
  index : Int
  status : PlayStatus

/-- A freshly constructed player. -/
def initPlayer : TimelinePlayer :=
  { mode := .manual, loadedSection := none, index := 0, status := .stopped }

/-- The greatest valid cursor index of a section:
`max 0 (timeline.length − 1)`. -/
def maxIndexOf (sect : Section) : Int :=
  max 0 ((sect.timeline.length : Int) - 1)

/-- `current()`: `this.section?.timeline[this.index]` — `undefined` when
no section is loaded or the index falls outside the array. -/
def currentItem (p : TimelinePlayer) : Option TimelineItem :=
  match p.loadedSection with
  | none => none
  | some sect =>
    if p.index < 0 then none else sect.timeline[p.index.toNat]?

/-- `loadSection(sectionId, sections)`: find the section (throwing when
absent), install it, and reset the cursor to 0 only when the section id
changed; otherwise clamp the cursor to the new timeline length. -/
def loadSection (p : TimelinePlayer) (sectionId : String) (sections : List Section) :
    Except String TimelinePlayer :=
  match sections.find? (fun item => item.id = sectionId) with
  | none => .error ("Section not found: " ++ sectionId)
  | some sect =>
    let sectionChanged : Bool :=
      match p.loadedSection with
      | none => true
      | some old => decide (old.id ≠ sect.id)
    if sectionChanged then
      .ok { p with loadedSection := some sect, index := 0, status := .stopped }
    else if sect.timeline.length = 0 then
      .ok { p with loadedSection := some sect, index := 0 }
    else
      .ok { p with loadedSection := some sect,
                   index := min p.index ((sect.timeline.length : Int) - 1) }

/-- `next()`: throws without a section, returns `undefined` on an empty
timeline, otherwise advances the cursor clamped at the last item. -/
def nextItem (p : TimelinePlayer) :
    Except String (Option TimelineItem × TimelinePlayer) :=
  match p.loadedSection with
  | none => .error "No section loaded into timeline player"
  | some sect =>
    if sect.timeline.length = 0 then .ok (none, p)
    else
      let p2 := { p with index := min (p.index + 1) ((sect.timeline.length : Int) - 1) }
      .ok (currentItem p2, p2)

/-- `prev()`: throws without a section, returns `undefined` on an empty
timeline, otherwise moves the cursor back clamped at 0. -/
def prevItem (p : TimelinePlayer) :
    Except String (Option TimelineItem × TimelinePlayer) :=
  match p.loadedSection with
  | none => .error "No section loaded into timeline player"
  | some sect =>
    if sect.timeline.length = 0 then .ok (none, p)
    else
      let p2 := { p with index := max 0 (p.index - 1) }
      .ok (currentItem p2, p2)

/-- `gotoIndex(index)`: throws without a section, returns `undefined`
on an empty timeline, otherwise clamps the requested index into the
valid range. -/
def gotoIndex (p : TimelinePlayer) (i : Int) :
    Except String (Option TimelineItem × TimelinePlayer) :=
  match p.loadedSection with
  | none => .error "No section loaded into timeline player"
  | some sect =>
    if sect.timeline.length = 0 then .ok (none, p)
    else
      let p2 := { p with index := max 0 (min i ((sect.timeline.length : Int) - 1)) }
      .ok (currentItem p2, p2)

/-- `stop()`: throws without a section, otherwise stops and resets the
cursor to 0. -/
def stopPlayer (p : TimelinePlayer) : Except String TimelinePlayer :=
  match p.loadedSection with
  | none => .error "No section loaded into timeline player"
  | some _ => .ok { p with status := .stopped, index := 0 }

/-- The cursor invariant of the claim: the index is inside
`[0, max 0 (length − 1)]` of the loaded section, and 0 while nothing is
loaded. -/
def cursorInv (p : TimelinePlayer) : Prop :=
  0 ≤ p.index ∧
  match p.loadedSection with
  | none => p.index = 0
  | some sect => p.index ≤ maxIndexOf sect


/-- A section with a two-item timeline. -/
def sampleSectionTwo : Section :=
  { id := "sA", title := "A", order := 0, musicItems := []
    timeline :=
      [.pageBreak { id := "i1", title := "T", questionsText := "Q",
                    textStyle := "plain", mediaGrid := [] },
       .pageBreak { id := "i2", title := "U", questionsText := "R",
                    textStyle := "plain", mediaGrid := [] }]
    settings := none }

/-- A section with an empty timeline. -/
def sampleSectionEmpty : Section :=
  { id := "sE", title := "E", order := 1, musicItems := [], timeline := []
    settings := none }


/-! ## Manifest JSON image (`JSON.stringify`/`JSON.parse` round trip)

The manifest is persisted as `JSON.stringify(manifest, null, 2)` and
read back with `JSON.parse(...) as ProjectManifest`.  `encode*` below
is the JSON image of each in-memory object (`JSON.stringify` omits
`undefined`-valued optional fields); `decode*` is the typed reading of
a parsed JSON value, the shape the rest of the program assumes after
the cast. -/

/-- Read a string-valued property. -/
def getStr (j : Json) (k : String) : Option String :=
  match j.get k with
  | some (.str s) => some s
  | _ => none

/-- Read a number-valued property. -/
def getNum (j : Json) (k : String) : Option Int :=
  match j.get k with
  | some (.num n) => some n
  | _ => none

/-- Read a boolean-valued property. -/
def getBool (j : Json) (k : String) : Option Bool :=
  match j.get k with
  | some (.bool b) => some b
  | _ => none

/-- Read an array-valued property. -/
def getArr (j : Json) (k : String) : Option (List Json) :=
  match j.get k with
  | some (.arr xs) => some xs
  | _ => none

/-- Read an object-valued property as its entry list. -/
def getEntries (j : Json) (k : String) : Option (List (String × Json)) :=
  match j.get k with
  | some (.obj kvs) => some kvs
  | _ => none

/-- Read an optional string property (absent ↦ `none`). -/
def getOptStr (j : Json) (k : String) : Option (Option String) :=
  match j.get k with
  | none => some none
  | some (.str s) => some (some s)
  | _ => none

/-- Read an optional number property (absent ↦ `none`). -/
def getOptNum (j : Json) (k : String) : Option (Option Int) :=
  match j.get k with
  | none => some none
  | some (.num n) => some (some n)
  | _ => none

/-- Decode every element of a JSON array. -/
def decodeList {α : Type} (dec : Json → Option α) : List Json → Option (List α)
  | [] => some []
  | j :: rest =>
    match dec j, decodeList dec rest with
    | some a, some as => some (a :: as)
    | _, _ => none

/-- Decode every entry of a JSON object. -/
def decodeKVList {α : Type} (dec : Json → Option α) :
    List (String × Json) → Option (List (String × α))
  | [] => some []
  | (k, j) :: rest =>
    match dec j, decodeKVList dec rest with
    | some a, some as => some ((k, a) :: as)
    | _, _ => none

def encodeAssetMeta (a : AssetMeta) : Json :=
  .obj
    [("ext", .str a.ext), ("mime", .str a.mime),
     ("originalFileName", .str a.originalFileName),
     ("size", .num a.size), ("hash", .str a.hash)]

def decodeAssetMeta (j : Json) : Option AssetMeta := do
  let ext ← getStr j "ext"
  let mime ← getStr j "mime"
  let originalFileName ← getStr j "originalFileName"
  let size ← getNum j "size"
  let hash ← getStr j "hash"
  pure ⟨ext, mime, originalFileName, size, hash⟩

def encodeMusicItem (x : MusicItem) : Json :=
  .obj
    [("id", .str x.id), ("assetId", .str x.assetId), ("label", .str x.label),
     ("volume", .num x.volume), ("loop", .bool x.loop)]

def decodeMusicItem (j : Json) : Option MusicItem := do
  let id ← getStr j "id"
  let assetId ← getStr j "assetId"
  let label ← getStr j "label"
  let volume ← getNum j "volume"
  let loopFlag ← getBool j "loop"
  pure ⟨id, assetId, label, volume, loopFlag⟩

def encodeDialogueItem (x : DialogueItem) : Json :=
  .obj
    [("id", .str x.id), ("assetId", .str x.assetId), ("label", .str x.label),
     ("volume", .num x.volume)]

def decodeDialogueItem (j : Json) : Option DialogueItem := do
  let id ← getStr j "id"
  let assetId ← getStr j "assetId"
  let label ← getStr j "label"
  let volume ← getNum j "volume"
  pure ⟨id, assetId, label, volume⟩

def encodeDialogueLine (x : DialogueLine) : Json :=
  .obj [("id", .str x.id), ("speaker", .str x.speaker), ("text", .str x.text)]

def decodeDialogueLine (j : Json) : Option DialogueLine := do
  let id ← getStr j "id"
  let speaker ← getStr j "speaker"
  let text ← getStr j "text"
  pure ⟨id, speaker, text⟩

def encodeCrop (c : Crop) : Json :=
  .obj [("x", .num c.x), ("y", .num c.y), ("w", .num c.w), ("h", .num c.h)]

def decodeCrop (j : Json) : Option Crop := do
  let x ← getNum j "x"
  let y ← getNum j "y"
  let w ← getNum j "w"
  let h ← getNum j "h"
  pure ⟨x, y, w, h⟩

def fitModeStr : FitMode → String
  | .cover => "cover"
  | .contain => "contain"

def decodeFitMode (s : String) : Option FitMode :=
  if s = "cover" then some .cover
  else if s = "contain" then some .contain
  else none

def sizePresetStr : SizePreset → String
  | .s => "S"
  | .m => "M"
  | .l => "L"

def decodeSizePreset (s : String) : Option SizePreset :=
  if s = "S" then some .s
  else if s = "M" then some .m
  else if s = "L" then some .l
  else none

def panDirectionStr : PanDirection → String
  | .noPan => "none"
  | .left => "left"
  | .right => "right"
  | .up => "up"
  | .down => "down"

def decodePanDirection (s : String) : Option PanDirection :=
  if s = "none" then some .noPan
  else if s = "left" then some .left
  else if s = "right" then some .right
  else if s = "up" then some .up
  else if s = "down" then some .down
  else none

def encodeMediaTile (t : MediaTile) : Json :=
  .obj
    ([("id", .str t.id), ("assetId", .str t.assetId),
      ("fitMode", .str (fitModeStr t.fitMode))] ++
      (match t.crop with
       | none => []
       | some c => [("crop", encodeCrop c)]) ++
      [("sizePreset", .str (sizePresetStr t.sizePreset))])

def decodeMediaTile (j : Json) : Option MediaTile := do
  let id ← getStr j "id"
  let assetId ← getStr j "assetId"
  let fitModeS ← getStr j "fitMode"
  let fitMode ← decodeFitMode fitModeS
  let crop ←
    match j.get "crop" with
    | none => some none
    | some c => (decodeCrop c).map some
  let sizePresetS ← getStr j "sizePreset"
  let sizePreset ← decodeSizePreset sizePresetS
  pure ⟨id, assetId, fitMode, crop, sizePreset⟩

def encodeSlideItem (x : SlideItem) : Json :=
  .obj
    [("id", .str x.id), ("type", .str "slide"), ("assetId", .str x.assetId),
     ("label", .str x.label), ("transition", .str x.transition),
     ("durationMs", .num x.durationMs),
     ("panDirection", .str (panDirectionStr x.panDirection)),
     ("dialogueItems", .arr (x.dialogueItems.map encodeDialogueItem)),
     ("dialogueLines", .arr (x.dialogueLines.map encodeDialogueLine))]

def decodeSlideItem (j : Json) : Option SlideItem := do
  let id ← getStr j "id"
  let assetId ← getStr j "assetId"
  let label ← getStr j "label"
  let transition ← getStr j "transition"
  let durationMs ← getNum j "durationMs"
  let panS ← getStr j "panDirection"
  let panDirection ← decodePanDirection panS
  let diJ ← getArr j "dialogueItems"
  let dialogueItems ← decodeList decodeDialogueItem diJ
  let dlJ ← getArr j "dialogueLines"
  let dialogueLines ← decodeList decodeDialogueLine dlJ
  pure ⟨id, assetId, label, transition, durationMs, panDirection,
    dialogueItems, dialogueLines⟩

def encodeVideoItem (x : VideoItem) : Json :=
  .obj
    ([("id", .str x.id), ("type", .str "video"), ("assetId", .str x.assetId),
      ("label", .str x.label), ("startTime", .num x.startTime)] ++
      (match x.endTime with
       | none => []
       | some t => [("endTime", .num t)]))

def decodeVideoItem (j : Json) : Option VideoItem := do
  let id ← getStr j "id"
  let assetId ← getStr j "assetId"
  let label ← getStr j "label"
  let startTime ← getNum j "startTime"
  let endTime ← getOptNum j "endTime"
  pure ⟨id, assetId, label, startTime, endTime⟩

def encodePageBreakItem (x : PageBreakItem) : Json :=
  .obj
    [("id", .str x.id), ("type", .str "pageBreak"), ("title", .str x.title),
     ("questionsText", .str x.questionsText), ("textStyle", .str x.textStyle),
     ("mediaGrid", .arr (x.mediaGrid.map encodeMediaTile))]

def decodePageBreakItem (j : Json) : Option PageBreakItem := do
  let id ← getStr j "id"
  let title ← getStr j "title"
  let questionsText ← getStr j "questionsText"
  let textStyle ← getStr j "textStyle"
  let mgJ ← getArr j "mediaGrid"
  let mediaGrid ← decodeList decodeMediaTile mgJ
  pure ⟨id, title, questionsText, textStyle, mediaGrid⟩

def encodeTimelineItem : TimelineItem → Json
  | .slide x => encodeSlideItem x
  | .video x => encodeVideoItem x
  | .pageBreak x => encodePageBreakItem x

def decodeTimelineItem (j : Json) : Option TimelineItem := do
  let t ← getStr j "type"
  if t = "slide" then (decodeSlideItem j).map .slide
  else if t = "video" then (decodeVideoItem j).map .video
  else if t = "pageBreak" then (decodePageBreakItem j).map .pageBreak
  else none

def encodeSectionSettings (x : SectionSettings) : Json :=
  .obj
    ((match x.defaultTransition with
      | none => []
      | some t => [("defaultTransition", .str t)]) ++
     (match x.idlePanDefaults with
      | none => []
      | some t => [("idlePanDefaults", .str t)]))

def decodeSectionSettings (j : Json) : Option SectionSettings := do
  let defaultTransition ← getOptStr j "defaultTransition"
  let idlePanDefaults ← getOptStr j "idlePanDefaults"
  pure ⟨defaultTransition, idlePanDefaults⟩

def encodeSection (x : Section) : Json :=
  .obj
    ([("id", .str x.id), ("title", .str x.title), ("order", .num x.order),
      ("musicItems", .arr (x.musicItems.map encodeMusicItem)),
      ("timeline", .arr (x.timeline.map encodeTimelineItem))] ++
      (match x.settings with
       | none => []
       | some st => [("settings", encodeSectionSettings st)]))

def decodeSection (j : Json) : Option Section := do
  let id ← getStr j "id"
  let title ← getStr j "title"
  let order ← getNum j "order"
  let miJ ← getArr j "musicItems"
  let musicItems ← decodeList decodeMusicItem miJ
  let tlJ ← getArr j "timeline"
  let timeline ← decodeList decodeTimelineItem tlJ
  let settings ←
    match j.get "settings" with
    | none => some none
    | some st => (decodeSectionSettings st).map some
  pure ⟨id, title, order, musicItems, timeline, settings⟩

def encodeManifest (m : ProjectManifest) : Json :=
  .obj
    [("schemaVersion", .num m.schemaVersion),
     ("createdAt", .str m.createdAt), ("updatedAt", .str m.updatedAt),
     ("sections", .arr (m.sections.map encodeSection)),
     ("assetRegistry",
       .obj (m.assetRegistry.map fun kv => (kv.1, encodeAssetMeta kv.2)))]

def decodeManifest (j : Json) : Option ProjectManifest := do
  let schemaVersion ← getNum j "schemaVersion"
  let createdAt ← getStr j "createdAt"
  let updatedAt ← getStr j "updatedAt"
  let secJ ← getArr j "sections"
  let sections ← decodeList decodeSection secJ
  let regJ ← getEntries j "assetRegistry"
  let assetRegistry ← decodeKVList decodeAssetMeta regJ
  pure ⟨schemaVersion, createdAt, updatedAt, sections, assetRegistry⟩


/-! ## Manifest store handlers and the event log -/

/-- The per-project state the create/open/save/autosave/recover
handlers touch: `manifest.json` (its parsed JSON content, `none` when
absent), the autosave directory, and the lines of
`logs/events.log`. -/
structure OpsState where
  manifestFile : Option Json
  autosave : AutosaveDir
  logLines : List String

/-- `writeLog`: append one `<timestamp> <message>` line to
`logs/events.log` and return the log path. -/
def writeLogOp (st : OpsState) (projectPath now message : String) :
    OpsState × String :=
  ({ st with logLines := st.logLines ++ [now ++ " " ++ message] },
    projectPath ++ "/logs/events.log")

/-- `defaultManifest()`: schema version 1, one empty section, empty
registry, both timestamps the current instant. -/
def defaultManifest (now sectionId : String) : ProjectManifest :=
  { schemaVersion := 1
    createdAt := now
    updatedAt := now
    sections := [{ id := sectionId, title := "Section 1", order := 0,
                   musicItems := [], timeline := [], settings := none }]
    assetRegistry := [] }

/-- The `project:create` handler: a cancelled directory dialog throws;
otherwise ensure the folder layout, build the default manifest, write
`manifest.json` atomically, and log one `project:create` line. -/
def createOp (st : OpsState) (dialogDir : Option String) (now sectionId : String) :
    Except String (String × ProjectManifest) × OpsState :=
  match dialogDir with
  | none => (.error "Project creation cancelled", st)
  | some projectPath =>
    let manifest := defaultManifest now sectionId
    let st1 := { st with manifestFile := some (encodeManifest manifest) }
    let (st2, _) := writeLogOp st1 projectPath now ("project:create " ++ projectPath)
    (.ok (projectPath, manifest), st2)

/-- The `project:open` handler: a cancelled dialog throws; a missing
`manifest.json` makes `fs.readFile` reject; otherwise the parsed JSON
is returned.  No log line is written. -/
def openOp (st : OpsState) (dialogDir : Option String) :
    Except String Json × OpsState :=
  match dialogDir with
  | none => (.error "Open cancelled", st)
  | some _ =>
    match st.manifestFile with
    | none => (.error "ENOENT: no such file or directory, open manifest.json", st)
    | some j => (.ok j, st)

/-- The `project:save` handler: stamp `updatedAt`, atomically write
`manifest.json`, and log one `project:save` line.  Returns
`(manifestPath, savedAt, logPath)`. -/
def saveOp (st : OpsState) (projectPath : String) (m : ProjectManifest)
    (now : String) : (String × String × String) × OpsState :=
  let nextManifest := { m with updatedAt := now }
  let manifestPath := projectPath ++ "/manifest.json"
  let st1 := { st with manifestFile := some (encodeManifest nextManifest) }
  let (st2, logPath) := writeLogOp st1 projectPath now ("project:save " ++ manifestPath)
  ((manifestPath, nextManifest.updatedAt, logPath), st2)

/-- The `project:autosave` handler: stamp `updatedAt`, serialize once
(`serialize` stands for `JSON.stringify(·, null, 2)`), write
`autosave_latest.json`, rotate the ring, write slot 1, and log one
`project:autosave` line.  Returns `(autosavePath, savedAt, logPath)`. -/
def autosaveOp (serialize : ProjectManifest → String) (st : OpsState)
    (projectPath : String) (m : ProjectManifest) (now : String) :
    (String × String × String) × OpsState :=
  let autosaveManifest := { m with updatedAt := now }
  let payload := serialize autosaveManifest
  let latestPath := projectPath ++ "/autosave/autosave_latest.json"
  let st1 := { st with autosave := autosaveStep st.autosave payload }
  let (st2, logPath) :=
    writeLogOp st1 projectPath now ("project:autosave " ++ latestPath)
  ((latestPath, autosaveManifest.updatedAt, logPath), st2)

/-- The `project:recover` handler acting on the ops state: scan the
autosave directory as `recover` does and, on success, log one
`project:recover` line naming the accepted snapshot. -/
def recoverOp (st : OpsState) (dir : Option (List AutosaveFile))
    (projectPath now : String) :
    Except RecoverError (Json × String) × OpsState :=
  match recover dir with
  | (.ok (j, p), _) =>
    let (st1, _) := writeLogOp st projectPath now ("project:recover " ++ p)
    (.ok (j, p), st1)
  | (.error e, _) => (.error e, st)

/-! ## Proofs -/

lemma renameSlot_slot_other (d : AutosaveDir) (src dst i : Nat)
    (h1 : i ≠ src) (h2 : i ≠ dst) :
    (renameSlot d src dst).slot i = d.slot i := by
  unfold renameSlot
  cases d.slot src with
  | none => rfl
  | some c => simp [h1, h2]

lemma renameSlot_slot_src (d : AutosaveDir) (src dst : Nat) (h : src ≠ dst) :
    (renameSlot d src dst).slot src = none := by
  unfold renameSlot
  cases hs : d.slot src with
  | none => simpa using hs
  | some c => simp [h]

lemma renameSlot_slot_dst (d : AutosaveDir) (src dst : Nat) :
    (renameSlot d src dst).slot dst =
      if d.slot src = none then d.slot dst else d.slot src := by
  unfold renameSlot
  cases hs : d.slot src with
  | none => simp
  | some c => simp

lemma renameSlot_latest (d : AutosaveDir) (src dst : Nat) :
    (renameSlot d src dst).latest = d.latest := by
  unfold renameSlot
  cases d.slot src <;> rfl

/-- The rotation loop, unrolled. -/
lemma rotateSlots_eq (d : AutosaveDir) :
    rotateSlots d =
      renameSlot (renameSlot (renameSlot (renameSlot (renameSlot (renameSlot
        (renameSlot (renameSlot (renameSlot d 9 10) 8 9) 7 8) 6 7) 5 6) 4 5)
          3 4) 2 3) 1 2 := rfl

lemma rotateSlots_latest (d : AutosaveDir) :
    (rotateSlots d).latest = d.latest := by
  rw [rotateSlots_eq]
  simp only [renameSlot_latest]

/-- After rotation slot 1 is vacated. -/
lemma rotateSlots_slot_one (d : AutosaveDir) : (rotateSlots d).slot 1 = none := by
  rw [rotateSlots_eq]
  exact renameSlot_slot_src _ 1 2 (by omega)

/-- After rotation, a middle slot `2 ≤ i ≤ 9` holds what slot `i − 1`
held before. -/
lemma rotateSlots_slot_mid (d : AutosaveDir) (i : Nat) (h2 : 2 ≤ i) (h9 : i ≤ 9) :
    (rotateSlots d).slot i = d.slot (i - 1) := by
  interval_cases i
  · rw [rotateSlots_eq,
      renameSlot_slot_dst _ 1 2,
      renameSlot_slot_src _ 2 3 (by omega),
      renameSlot_slot_other _ 2 3 1 (by omega) (by omega),
      renameSlot_slot_other _ 3 4 1 (by omega) (by omega),
      renameSlot_slot_other _ 4 5 1 (by omega) (by omega),
      renameSlot_slot_other _ 5 6 1 (by omega) (by omega),
      renameSlot_slot_other _ 6 7 1 (by omega) (by omega),
      renameSlot_slot_other _ 7 8 1 (by omega) (by omega),
      renameSlot_slot_other _ 8 9 1 (by omega) (by omega),
      renameSlot_slot_other _ 9 10 1 (by omega) (by omega)]
    cases d.slot 1 <;> simp
  · rw [rotateSlots_eq,
      renameSlot_slot_other _ 1 2 3 (by omega) (by omega),
      renameSlot_slot_dst _ 2 3,
      renameSlot_slot_src _ 3 4 (by omega),
      renameSlot_slot_other _ 3 4 2 (by omega) (by omega),
      renameSlot_slot_other _ 4 5 2 (by omega) (by omega),
      renameSlot_slot_other _ 5 6 2 (by omega) (by omega),
      renameSlot_slot_other _ 6 7 2 (by omega) (by omega),
      renameSlot_slot_other _ 7 8 2 (by omega) (by omega),
      renameSlot_slot_other _ 8 9 2 (by omega) (by omega),
      renameSlot_slot_other _ 9 10 2 (by omega) (by omega)]
    cases d.slot 2 <;> simp
  · rw [rotateSlots_eq,
      renameSlot_slot_other _ 1 2 4 (by omega) (by omega),
      renameSlot_slot_other _ 2 3 4 (by omega) (by omega),
      renameSlot_slot_dst _ 3 4,
      renameSlot_slot_src _ 4 5 (by omega),
      renameSlot_slot_other _ 4 5 3 (by omega) (by omega),
      renameSlot_slot_other _ 5 6 3 (by omega) (by omega),
      renameSlot_slot_other _ 6 7 3 (by omega) (by omega),
      renameSlot_slot_other _ 7 8 3 (by omega) (by omega),
      renameSlot_slot_other _ 8 9 3 (by omega) (by omega),
      renameSlot_slot_other _ 9 10 3 (by omega) (by omega)]
    cases d.slot 3 <;> simp
  · rw [rotateSlots_eq,
      renameSlot_slot_other _ 1 2 5 (by omega) (by omega),
      renameSlot_slot_other _ 2 3 5 (by omega) (by omega),
      renameSlot_slot_other _ 3 4 5 (by omega) (by omega),
      renameSlot_slot_dst _ 4 5,
      renameSlot_slot_src _ 5 6 (by omega),
      renameSlot_slot_other _ 5 6 4 (by omega) (by omega),
      renameSlot_slot_other _ 6 7 4 (by omega) (by omega),
      renameSlot_slot_other _ 7 8 4 (by omega) (by omega),
      renameSlot_slot_other _ 8 9 4 (by omega) (by omega),
      renameSlot_slot_other _ 9 10 4 (by omega) (by omega)]
    cases d.slot 4 <;> simp
  · rw [rotateSlots_eq,
      renameSlot_slot_other _ 1 2 6 (by omega) (by omega),
      renameSlot_slot_other _ 2 3 6 (by omega) (by omega),
      renameSlot_slot_other _ 3 4 6 (by omega) (by omega),
      renameSlot_slot_other _ 4 5 6 (by omega) (by omega),
      renameSlot_slot_dst _ 5 6,
      renameSlot_slot_src _ 6 7 (by omega),
      renameSlot_slot_other _ 6 7 5 (by omega) (by omega),
      renameSlot_slot_other _ 7 8 5 (by omega) (by omega),
      renameSlot_slot_other _ 8 9 5 (by omega) (by omega),
      renameSlot_slot_other _ 9 10 5 (by omega) (by omega)]
    cases d.slot 5 <;> simp
  · rw [rotateSlots_eq,
      renameSlot_slot_other _ 1 2 7 (by omega) (by omega),
      renameSlot_slot_other _ 2 3 7 (by omega) (by omega),
      renameSlot_slot_other _ 3 4 7 (by omega) (by omega),
      renameSlot_slot_other _ 4 5 7 (by omega) (by omega),
      renameSlot_slot_other _ 5 6 7 (by omega) (by omega),
      renameSlot_slot_dst _ 6 7,
      renameSlot_slot_src _ 7 8 (by omega),
      renameSlot_slot_other _ 7 8 6 (by omega) (by omega),
      renameSlot_slot_other _ 8 9 6 (by omega) (by omega),
      renameSlot_slot_other _ 9 10 6 (by omega) (by omega)]
    cases d.slot 6 <;> simp
  · rw [rotateSlots_eq,
      renameSlot_slot_other _ 1 2 8 (by omega) (by omega),
      renameSlot_slot_other _ 2 3 8 (by omega) (by omega),
      renameSlot_slot_other _ 3 4 8 (by omega) (by omega),
      renameSlot_slot_other _ 4 5 8 (by omega) (by omega),
      renameSlot_slot_other _ 5 6 8 (by omega) (by omega),
      renameSlot_slot_other _ 6 7 8 (by omega) (by omega),
      renameSlot_slot_dst _ 7 8,
      renameSlot_slot_src _ 8 9 (by omega),
      renameSlot_slot_other _ 8 9 7 (by omega) (by omega),
      renameSlot_slot_other _ 9 10 7 (by omega) (by omega)]
    cases d.slot 7 <;> simp
  · rw [rotateSlots_eq,
      renameSlot_slot_other _ 1 2 9 (by omega) (by omega),
      renameSlot_slot_other _ 2 3 9 (by omega) (by omega),
      renameSlot_slot_other _ 3 4 9 (by omega) (by omega),
      renameSlot_slot_other _ 4 5 9 (by omega) (by omega),
      renameSlot_slot_other _ 5 6 9 (by omega) (by omega),
      renameSlot_slot_other _ 6 7 9 (by omega) (by omega),
      renameSlot_slot_other _ 7 8 9 (by omega) (by omega),
      renameSlot_slot_dst _ 8 9,
      renameSlot_slot_src _ 9 10 (by omega),
      renameSlot_slot_other _ 9 10 8 (by omega) (by omega)]
    cases d.slot 8 <;> simp

/-- After rotation slot 10 holds slot 9's old content, except that an
occupied slot 10 survives when slot 9 was empty (the tolerated missing
rename source). -/
lemma rotateSlots_slot_ten (d : AutosaveDir) :
    (rotateSlots d).slot 10 =
      if d.slot 9 = none then d.slot 10 else d.slot 9 := by
  rw [rotateSlots_eq,
    renameSlot_slot_other _ 1 2 10 (by omega) (by omega),
    renameSlot_slot_other _ 2 3 10 (by omega) (by omega),
    renameSlot_slot_other _ 3 4 10 (by omega) (by omega),
    renameSlot_slot_other _ 4 5 10 (by omega) (by omega),
    renameSlot_slot_other _ 5 6 10 (by omega) (by omega),
    renameSlot_slot_other _ 6 7 10 (by omega) (by omega),
    renameSlot_slot_other _ 7 8 10 (by omega) (by omega),
    renameSlot_slot_other _ 8 9 10 (by omega) (by omega),
    renameSlot_slot_dst _ 9 10]

/-- Rotation never touches indices outside 1..10. -/
lemma rotateSlots_slot_out (d : AutosaveDir) (i : Nat) (h : i = 0 ∨ 11 ≤ i) :
    (rotateSlots d).slot i = d.slot i := by
  rw [rotateSlots_eq,
    renameSlot_slot_other _ 1 2 i (by omega) (by omega),
    renameSlot_slot_other _ 2 3 i (by omega) (by omega),
    renameSlot_slot_other _ 3 4 i (by omega) (by omega),
    renameSlot_slot_other _ 4 5 i (by omega) (by omega),
    renameSlot_slot_other _ 5 6 i (by omega) (by omega),
    renameSlot_slot_other _ 6 7 i (by omega) (by omega),
    renameSlot_slot_other _ 7 8 i (by omega) (by omega),
    renameSlot_slot_other _ 8 9 i (by omega) (by omega),
    renameSlot_slot_other _ 9 10 i (by omega) (by omega)]

/-- Ring invariant: after any number of autosave calls starting from an
empty directory, slot `i` (1 ≤ i ≤ 10) holds the `i`-th newest payload
(when that many exist), other indices hold nothing, and
`autosave_latest.json` holds the newest payload. -/
lemma autosaveRun_slots (payloads : List String) :
    (autosaveRun emptyAutosaveDir payloads).latest = payloads.reverse[0]? ∧
    ∀ i, (autosaveRun emptyAutosaveDir payloads).slot i =
      if 1 ≤ i ∧ i ≤ 10 then payloads.reverse[i - 1]? else none := by
  induction payloads using List.reverseRecOn with
  | nil =>
    refine ⟨rfl, fun i => ?_⟩
    simp [autosaveRun, emptyAutosaveDir]
  | append_singleton xs x ih =>
    obtain ⟨ihl, ihs⟩ := ih
    have hrun : autosaveRun emptyAutosaveDir (xs ++ [x]) =
        autosaveStep (autosaveRun emptyAutosaveDir xs) x := by
      simp [autosaveRun, List.foldl_append]
    have hrev : (xs ++ [x]).reverse = x :: xs.reverse := by simp
    rw [hrun, hrev]
    set d := autosaveRun emptyAutosaveDir xs with hd
    have hslotstep : ∀ i, (autosaveStep d x).slot i =
        if i = 1 then some x
        else (rotateSlots { d with latest := some x }).slot i := by
      intro i; rfl
    have hdslot : ∀ i, ({ d with latest := some x } : AutosaveDir).slot i = d.slot i :=
      fun _ => rfl
    constructor
    · show (autosaveStep d x).latest = _
      have hstep : (autosaveStep d x).latest =
          (rotateSlots { d with latest := some x }).latest := rfl
      rw [hstep, rotateSlots_latest]
      simp
    · intro i
      rw [hslotstep i]
      by_cases h1 : i = 1
      · subst h1; simp
      · rw [if_neg h1]
        by_cases h10 : i = 10
        · subst h10
          rw [rotateSlots_slot_ten, hdslot, hdslot, ihs 9, ihs 10,
            if_pos (by omega : 1 ≤ 9 ∧ 9 ≤ 10),
            if_pos (by omega : 1 ≤ 10 ∧ 10 ≤ 10),
            if_pos (by omega : 1 ≤ 10 ∧ 10 ≤ 10)]
          by_cases h8 : xs.reverse[8]? = none
          · have h9 : xs.reverse[9]? = none := by
              rw [List.getElem?_eq_none_iff] at h8 ⊢; omega
            simp [h8, h9]
          · simp [h8]
        · by_cases hmid : 2 ≤ i ∧ i ≤ 9
          · rw [rotateSlots_slot_mid _ i hmid.1 hmid.2, hdslot, ihs (i - 1),
              if_pos (by omega : 1 ≤ i - 1 ∧ i - 1 ≤ 10),
              if_pos (by omega : 1 ≤ i ∧ i ≤ 10),
              List.getElem?_cons, if_neg (by omega : ¬(i - 1 = 0))]
          · have hout : i = 0 ∨ 11 ≤ i := by omega
            rw [rotateSlots_slot_out _ i hout, hdslot, ihs i,
              if_neg (by omega : ¬(1 ≤ i ∧ i ≤ 10)),
              if_neg (by omega : ¬(1 ≤ i ∧ i ≤ 10))]

/-- C2: after `N > 10` consecutive autosave calls on an initially empty
autosave directory, exactly the ten numbered snapshots plus
`autosave_latest.json` exist; slot 1 and `autosave_latest.json` hold
the `N`-th autosave payload, and slot 10 holds the `(N − 9)`-th. -/
theorem autosave_ring_after_n_calls (payloads : List String)
    (h : payloads.length > 10) :
    (∀ i, (autosaveRun emptyAutosaveDir payloads).slot i ≠ none ↔ (1 ≤ i ∧ i ≤ 10)) ∧
    (autosaveRun emptyAutosaveDir payloads).latest ≠ none ∧
    (autosaveRun emptyAutosaveDir payloads).latest =
      payloads[payloads.length - 1]? ∧
    (autosaveRun emptyAutosaveDir payloads).slot 1 =
      payloads[payloads.length - 1]? ∧
    (autosaveRun emptyAutosaveDir payloads).slot 10 =
      payloads[payloads.length - 10]? := by
  obtain ⟨hl, hs⟩ := autosaveRun_slots payloads
  have hlen : payloads.reverse.length = payloads.length := List.length_reverse _
  have hrev0 : payloads.reverse[0]? = payloads[payloads.length - 1]? := by
    rw [List.getElem?_reverse (by omega)]
    congr 1
  have hrev9 : payloads.reverse[9]? = payloads[payloads.length - 10]? := by
    rw [List.getElem?_reverse (by omega)]
    have : payloads.length - 1 - 9 = payloads.length - 10 := by omega
    rw [this]
  refine ⟨?_, ?_, ?_, ?_, ?_⟩
  · intro i
    rw [hs i]
    by_cases hi : 1 ≤ i ∧ i ≤ 10
    · rw [if_pos hi]
      have : payloads.reverse[i - 1]? ≠ none := by
        rw [ne_eq, List.getElem?_eq_none_iff]
        omega
      simp [this, hi]
    · rw [if_neg hi]
      simp [hi]
  · rw [hl, ne_eq, List.getElem?_eq_none_iff]
    omega
  · rw [hl, hrev0]
  · rw [hs 1, if_pos (by omega : 1 ≤ 1 ∧ 1 ≤ 10)]
    simpa using hrev0
  · rw [hs 10, if_pos (by omega : 1 ≤ 10 ∧ 10 ≤ 10)]
    simpa using hrev9

/-- C2 witness: eleven consecutive autosaves leave slot 1 and
`autosave_latest.json` holding the 11th payload, slot 10 holding the
2nd, and nothing outside slots 1..10. -/
theorem autosave_ring_after_n_calls_witness :
    (autosaveRun emptyAutosaveDir
      ["p1", "p2", "p3", "p4", "p5", "p6", "p7", "p8", "p9", "p10", "p11"]).slot 1 =
        some "p11" ∧
    (autosaveRun emptyAutosaveDir
      ["p1", "p2", "p3", "p4", "p5", "p6", "p7", "p8", "p9", "p10", "p11"]).slot 10 =
        some "p2" ∧
    (autosaveRun emptyAutosaveDir
      ["p1", "p2", "p3", "p4", "p5", "p6", "p7", "p8", "p9", "p10", "p11"]).latest =
        some "p11" ∧
    (autosaveRun emptyAutosaveDir
      ["p1", "p2", "p3", "p4", "p5", "p6", "p7", "p8", "p9", "p10", "p11"]).slot 11 =
        none := by
  have hmain := autosave_ring_after_n_calls
    ["p1", "p2", "p3", "p4", "p5", "p6", "p7", "p8", "p9", "p10", "p11"]
    (by decide)
  refine ⟨?_, ?_, ?_, ?_⟩
  · rw [hmain.2.2.2.1]; rfl
  · rw [hmain.2.2.2.2]; rfl
  · rw [hmain.2.2.1]; rfl
  · have h11 := (hmain.1 11).not
    simp only [not_not] at h11
    exact h11.mpr (by omega)

/-- The scan loop accepts the first valid candidate: everything before
it is rejected, it is accepted, and its manifest and path are
returned. -/
lemma scanCandidates_append (l₁ l₂ : List AutosaveFile) (v : AutosaveFile) (j : Json)
    (h₁ : ∀ a ∈ l₁, candidateValid a = none)
    (hv : candidateValid v = some j) :
    scanCandidates (l₁ ++ v :: l₂) = .ok (j, v.name) := by
  induction l₁ with
  | nil => simp [scanCandidates, hv]
  | cons a t ih =>
    have ha : candidateValid a = none := h₁ a (by simp)
    simpa [scanCandidates, ha] using ih (fun b hb => h₁ b (by simp [hb]))

/-- C1: with distinct modification times among the autosave candidates,
`recover` considers candidates newest-first and returns the manifest
content and path of the newest candidate that both parses as JSON and
passes the `isManifestLike` structural check; candidates that fail are
skipped without being deleted (the directory listing is unchanged). -/
theorem recover_returns_newest_valid_candidate
    (files : List AutosaveFile)
    (hdist : (files.filter (fun f => isCandidateName f.name)).Pairwise
      (fun a b => a.mtimeMs ≠ b.mtimeMs))
    (v : AutosaveFile) (j : Json)
    (hvmem : v ∈ files) (hvcand : isCandidateName v.name = true)
    (hvvalid : candidateValid v = some j)
    (hnewest : ∀ f ∈ files, isCandidateName f.name = true →
      v.mtimeMs < f.mtimeMs → candidateValid f = none) :
    (recover (some files)).1 = .ok (j, v.name) ∧
      (recover (some files)).2 = some files := by
  have hvcs : v ∈ files.filter (fun f => isCandidateName f.name) :=
    List.mem_filter.mpr ⟨hvmem, hvcand⟩
  set cs := files.filter (fun f => isCandidateName f.name) with hcs
  have hperm : List.insertionSort newerFirst cs |>.Perm cs :=
    List.perm_insertionSort _ _
  have hsorted : List.Sorted newerFirst (List.insertionSort newerFirst cs) :=
    List.sorted_insertionSort _ _
  have hvsorted : v ∈ List.insertionSort newerFirst cs := hperm.mem_iff.mpr hvcs
  obtain ⟨l₁, l₂, hdecomp⟩ := List.append_of_mem hvsorted
  have hpairwise : (List.insertionSort newerFirst cs).Pairwise
      (fun a b => a.mtimeMs ≠ b.mtimeMs) :=
    (hperm.pairwise_iff (fun h => h.symm)).mpr hdist
  have hbefore : ∀ a ∈ l₁, candidateValid a = none := by
    intro a ha
    have hamem : a ∈ List.insertionSort newerFirst cs := by
      rw [hdecomp]; exact List.mem_append.mpr (Or.inl ha)
    have hacs : a ∈ cs := hperm.subset hamem
    have hafiles : a ∈ files := (List.mem_filter.mp hacs).1
    have hacand : isCandidateName a.name = true := (List.mem_filter.mp hacs).2
    have hle : newerFirst a v := by
      have := hsorted
      rw [hdecomp] at this
      rcases List.pairwise_append.mp this with ⟨_, _, hcross⟩
      exact hcross a ha v (by simp)
    have hne : a.mtimeMs ≠ v.mtimeMs := by
      have := hpairwise
      rw [hdecomp] at this
      rcases List.pairwise_append.mp this with ⟨_, _, hcross⟩
      exact hcross a ha v (by simp)
    exact hnewest a hafiles hacand (lt_of_le_of_ne hle (fun h => hne h.symm))
  have hscan : scanCandidates (List.insertionSort newerFirst cs) = .ok (j, v.name) := by
    rw [hdecomp]
    exact scanCandidates_append l₁ l₂ v j hbefore hvvalid
  have hnonempty : cs.isEmpty = false :=
    List.isEmpty_eq_false.mpr (List.ne_nil_of_mem hvcs)
  constructor
  · simp only [recover, ← hcs, hnonempty, Bool.false_eq_true, if_false]
    exact hscan
  · simp only [recover, ← hcs, hnonempty, Bool.false_eq_true, if_false]

/-- C1 witness: on the concrete directory whose newest file (T3) is
malformed and whose middle file (T2) is valid, `recover` returns T2's
content and path, and the directory is untouched. -/
theorem recover_returns_newest_valid_candidate_witness :
    (recover (some sampleAutosaveDir)).1 =
      .ok (sampleManifestJson 2, "autosave_001.json") ∧
    (recover (some sampleAutosaveDir)).2 = some sampleAutosaveDir := by
  refine recover_returns_newest_valid_candidate sampleAutosaveDir (by decide)
    ⟨"autosave_001.json", 2, some (sampleManifestJson 2)⟩
    (sampleManifestJson 2)
    (List.Mem.tail _ (List.Mem.tail _ (List.Mem.head _)))
    (by decide) rfl ?_
  intro f hf
  rcases List.mem_cons.mp hf with rfl | hf
  · intro _ h2; exact absurd h2 (by decide)
  rcases List.mem_cons.mp hf with rfl | hf
  · intro _ _; rfl
  rcases List.mem_cons.mp hf with rfl | hf
  · intro _ h2; exact absurd h2 (by decide)
  · exact absurd hf (List.not_mem_nil f)

/-- The scan loop throws `'No valid autosave snapshot found for
recovery'` when every candidate is rejected. -/
lemma scanCandidates_all_invalid (l : List AutosaveFile)
    (h : ∀ a ∈ l, candidateValid a = none) :
    scanCandidates l = .error .noValidSnapshot := by
  induction l with
  | nil => rfl
  | cons a t ih =>
    have ha : candidateValid a = none := h a (by simp)
    simpa [scanCandidates, ha] using ih (fun b hb => h b (by simp [hb]))

/-- C7 counterexample: when the autosave directory does not exist,
`recover` does not fail with the `'No autosave files found'` error —
the raw ENOENT rejection of `fs.readdir` propagates instead, and that
is a different error. -/
theorem recover_missing_dir_counterexample :
    (recover none).1 = .error RecoverError.enoentReaddir ∧
      RecoverError.enoentReaddir ≠ RecoverError.noAutosaveFiles :=
  ⟨rfl, by decide⟩

/-- C7 amended: when the autosave directory is missing, the readdir
ENOENT error propagates; when it exists but holds no `autosave_*.json`
candidate, `recover` fails with `'No autosave files found for
recovery'`; when candidates exist but none parses and passes the
structural check, it fails with the distinct `'No valid autosave
snapshot found for recovery'` error; the three failures are pairwise
distinct, so a caller can tell them apart. -/
theorem recover_error_distinction :
    (recover none).1 = .error RecoverError.enoentReaddir ∧
    (∀ files : List AutosaveFile,
      (files.filter (fun f => isCandidateName f.name)).isEmpty = true →
      (recover (some files)).1 = .error RecoverError.noAutosaveFiles) ∧
    (∀ files : List AutosaveFile,
      (files.filter (fun f => isCandidateName f.name)).isEmpty = false →
      (∀ f ∈ files, isCandidateName f.name = true → candidateValid f = none) →
      (recover (some files)).1 = .error RecoverError.noValidSnapshot) ∧
    (RecoverError.enoentReaddir ≠ RecoverError.noAutosaveFiles ∧
     RecoverError.enoentReaddir ≠ RecoverError.noValidSnapshot ∧
     RecoverError.noAutosaveFiles ≠ RecoverError.noValidSnapshot) := by
  refine ⟨rfl, ?_, ?_, by decide, by decide, by decide⟩
  · intro files hempty
    simp only [recover, hempty, if_true]
  · intro files hnonempty hallbad
    have hall : ∀ a ∈ List.insertionSort newerFirst
        (files.filter (fun f => isCandidateName f.name)), candidateValid a = none := by
      intro a ha
      have hacs : a ∈ files.filter (fun f => isCandidateName f.name) :=
        (List.perm_insertionSort _ _).subset ha
      exact hallbad a (List.mem_filter.mp hacs).1 (List.mem_filter.mp hacs).2
    simp only [recover, hnonempty, Bool.false_eq_true, if_false]
    exact scanCandidates_all_invalid _ hall

/-- C7 witness: an existing empty directory yields the
`'No autosave files found'` error, and a directory holding one corrupt
candidate yields the `'No valid autosave snapshot found'` error. -/
theorem recover_error_distinction_witness :
    (recover (some [])).1 = .error RecoverError.noAutosaveFiles ∧
    (recover (some [⟨"autosave_001.json", 1, none⟩])).1 =
      .error RecoverError.noValidSnapshot := by
  refine ⟨recover_error_distinction.2.1 [] rfl, ?_⟩
  refine recover_error_distinction.2.2.1 [⟨"autosave_001.json", 1, none⟩] rfl ?_
  intro f hf
  rcases List.mem_cons.mp hf with rfl | hf
  · intro _; rfl
  · exact absurd hf (List.not_mem_nil f)

/-- A fold that pushes each produced value to the back equals
`filterMap`. -/
lemma foldl_push_eq_filterMap {α : Type} (f : α → Option String) (l : List α) :
    ∀ acc : List String,
      l.foldl (fun missing id => pushViolation missing (f id)) acc =
        acc ++ l.filterMap f := by
  induction l with
  | nil => intro acc; simp
  | cons a t ih =>
    intro acc
    rw [List.foldl_cons, ih]
    cases h : f a with
    | none => simp [h, pushViolation]
    | some v => simp [h, pushViolation]

lemma mem_addRef (acc : List String) (a x : String) :
    x ∈ addRef acc a ↔ x ∈ acc ∨ x = a := by
  unfold addRef
  by_cases h : a ∈ acc
  · simp only [if_pos h]
    constructor
    · exact fun hx => Or.inl hx
    · rintro (hx | rfl)
      · exact hx
      · exact h
  · simp [if_neg h]

lemma mem_foldl_addRef (l : List String) :
    ∀ acc x, x ∈ l.foldl addRef acc ↔ x ∈ acc ∨ x ∈ l := by
  induction l with
  | nil => intro acc x; simp
  | cons a t ih =>
    intro acc x
    rw [List.foldl_cons, ih, mem_addRef]
    constructor
    · rintro ((hx | rfl) | hx)
      · exact Or.inl hx
      · exact Or.inr (by simp)
      · exact Or.inr (by simp [hx])
    · rintro (hx | hx)
      · exact Or.inl (Or.inl hx)
      · rcases List.mem_cons.mp hx with rfl | hx
        · exact Or.inl (Or.inr rfl)
        · exact Or.inr hx

lemma nodup_foldl_addRef (l : List String) :
    ∀ acc : List String, acc.Nodup → (l.foldl addRef acc).Nodup := by
  induction l with
  | nil => intro acc h; simpa using h
  | cons a t ih =>
    intro acc h
    rw [List.foldl_cons]
    refine ih _ ?_
    unfold addRef
    by_cases ha : a ∈ acc
    · simpa [if_pos ha] using h
    · rw [if_neg ha]
      exact h.append (List.nodup_singleton a) (by simpa using ha)

/-- C4: `healthCheck` reports exactly one violation per distinct
reachable asset id, with the label determined by the id's condition,
and reports nothing for healthy ids; it is a pure function of the
manifest and the assets directory (it never mutates the manifest and
throws for no individual missing asset). -/
theorem healthCheck_reference_integrity (m : ProjectManifest) (fs : String → Option Int) :
    healthCheck m fs = (collectRefs m).filterMap (violationOf m fs) ∧
    (collectRefs m).Nodup ∧
    (∀ id, id ∈ collectRefs m ↔ id ∈ rawRefs m) ∧
    (healthCheck m fs = [] ↔ ∀ id ∈ rawRefs m, violationOf m fs id = none) ∧
    (∀ id, registryLookup m.assetRegistry id = none →
      violationOf m fs id = some (id ++ ":missing-registry-entry")) ∧
    (∀ id meta, registryLookup m.assetRegistry id = some meta →
      fs (assetFileName id meta.ext) = none →
      violationOf m fs id = some (id ++ ":missing-file")) ∧
    (∀ id meta size, registryLookup m.assetRegistry id = some meta →
      fs (assetFileName id meta.ext) = some size → size ≤ 0 →
      violationOf m fs id = some (id ++ ":empty-file")) ∧
    (∀ id meta size, registryLookup m.assetRegistry id = some meta →
      fs (assetFileName id meta.ext) = some size → 0 < size →
      violationOf m fs id = none) := by
  have hmem : ∀ id, id ∈ collectRefs m ↔ id ∈ rawRefs m := by
    intro id
    unfold collectRefs
    rw [mem_foldl_addRef]
    simp
  have hfm : healthCheck m fs = (collectRefs m).filterMap (violationOf m fs) := by
    unfold healthCheck
    rw [foldl_push_eq_filterMap]
    simp
  refine ⟨hfm, nodup_foldl_addRef _ [] List.nodup_nil, hmem, ?_, ?_, ?_, ?_, ?_⟩
  · rw [hfm, List.filterMap_eq_nil_iff]
    constructor
    · intro h id hid
      exact h id ((hmem id).mpr hid)
    · intro h id hid
      exact h id ((hmem id).mp hid)
  · intro id h
    simp [violationOf, h]
  · intro id meta h1 h2
    simp [violationOf, h1, h2]
  · intro id meta size h1 h2 h3
    simp [violationOf, h1, h2, h3]
  · intro id meta size h1 h2 h3
    simp [violationOf, h1, h2]
    omega

/-- C4 witness: on the concrete manifest whose video references the
unregistered `a2` and whose music references the zero-byte `a3`,
`healthCheck` reports exactly those two violations, in reference
order. -/
theorem healthCheck_reference_integrity_witness :
    healthCheck sampleManifest sampleAssetFs =
      ["a2:missing-registry-entry", "a3:empty-file"] ∧
    ("a1" ∈ collectRefs sampleManifest ↔ "a1" ∈ rawRefs sampleManifest) := by
  obtain ⟨hfm, _, hmem, _⟩ := healthCheck_reference_integrity sampleManifest sampleAssetFs
  refine ⟨?_, hmem "a1"⟩
  rw [hfm]
  decide

lemma validateLoop_eq_none_iff (m : ProjectManifest) (fs : String → Option Int)
    (l : List String) :
    validateLoop m fs l = none ↔ ∀ id ∈ l, validateAsset m fs id = none := by
  induction l with
  | nil => simp [validateLoop]
  | cons a t ih =>
    unfold validateLoop
    cases h : validateAsset m fs a with
    | none => simpa [h] using ih
    | some e => simp [h]

lemma validateLoop_some_mem (m : ProjectManifest) (fs : String → Option Int)
    (l : List String) (e : ExportError) (h : validateLoop m fs l = some e) :
    ∃ id ∈ l, validateAsset m fs id = some e := by
  induction l with
  | nil => simp [validateLoop] at h
  | cons a t ih =>
    unfold validateLoop at h
    cases ha : validateAsset m fs a with
    | none =>
      rw [ha] at h
      obtain ⟨id, hid, hval⟩ := ih h
      exact ⟨id, by simp [hid], hval⟩
    | some e2 =>
      rw [ha] at h
      cases h
      exact ⟨a, by simp, ha⟩

lemma validateAsset_names (m : ProjectManifest) (fs : String → Option Int)
    (id : String) (e : ExportError) (h : validateAsset m fs id = some e) :
    exportErrorAsset e = some id := by
  cases h1 : registryLookup m.assetRegistry id with
  | none =>
    simp [validateAsset, h1] at h
    rw [← h]
    rfl
  | some meta =>
    cases h2 : fs (assetFileName id meta.ext) with
    | none =>
      simp [validateAsset, h1, h2] at h
      rw [← h]
      rfl
    | some size =>
      by_cases h3 : size ≤ 0
      · simp [validateAsset, h1, h2, h3] at h
        rw [← h]
        rfl
      · simp [validateAsset, h1, h2, h3] at h

/-- C5: a manifest with at least one reachable asset id that is absent
from the registry or backed by a zero-byte file makes `project:export`
abort with an error naming an offending reachable asset, before the
destination dialog is shown and before any archive file is created at
the destination path. -/
theorem export_fail_fast (m : ProjectManifest) (fs : String → Option Int)
    (destDialog : Option String)
    (h : ∃ id ∈ rawRefs m,
      registryLookup m.assetRegistry id = none ∨
      ∃ meta size, registryLookup m.assetRegistry id = some meta ∧
        fs (assetFileName id meta.ext) = some size ∧ size ≤ 0) :
    ∃ e id, (exportProject m fs destDialog).1 = .error e ∧
      exportErrorAsset e = some id ∧ id ∈ rawRefs m ∧
      (exportProject m fs destDialog).2.1 = false ∧
      (exportProject m fs destDialog).2.2 = false := by
  obtain ⟨id, hid, hbad⟩ := h
  have hidc : id ∈ collectRefs m := by
    unfold collectRefs
    rw [mem_foldl_addRef]
    exact Or.inr hid
  have hsome : validateAsset m fs id ≠ none := by
    rcases hbad with hreg | ⟨meta, size, hmeta, hsize, hle⟩
    · simp [validateAsset, hreg]
    · simp [validateAsset, hmeta, hsize, hle]
  have hloop : validateLoop m fs (collectRefs m) ≠ none := by
    intro hnone
    exact hsome (((validateLoop_eq_none_iff m fs _).mp hnone) id hidc)
  cases hl : validateLoop m fs (collectRefs m) with
  | none => exact absurd hl hloop
  | some e =>
    obtain ⟨id2, hid2, hval2⟩ := validateLoop_some_mem m fs _ e hl
    have hid2raw : id2 ∈ rawRefs m := by
      have := (mem_foldl_addRef (rawRefs m) [] id2).mp hid2
      simpa using this
    refine ⟨e, id2, ?_, validateAsset_names m fs id2 e hval2, hid2raw, ?_, ?_⟩ <;>
      simp [exportProject, hl]

/-- C5 witness: exporting the concrete manifest whose video references
the unregistered asset `a2` aborts with the error naming `a2`, with the
dialog never requested and no archive created. -/
theorem export_fail_fast_witness :
    (∃ e id, (exportProject sampleManifest sampleAssetFs (some "export.tstudio")).1 = .error e ∧
      exportErrorAsset e = some id ∧ id ∈ rawRefs sampleManifest ∧
      (exportProject sampleManifest sampleAssetFs (some "export.tstudio")).2.1 = false ∧
      (exportProject sampleManifest sampleAssetFs (some "export.tstudio")).2.2 = false) ∧
    (exportProject sampleManifest sampleAssetFs (some "export.tstudio")).1 =
      .error (ExportError.missingRegistry "a2") := by
  constructor
  · refine export_fail_fast sampleManifest sampleAssetFs (some "export.tstudio")
      ⟨"a2", ?_, ?_⟩
    · decide
    · left
      decide
  · rfl

/-- C3: at every intermediate point of an `atomicWrite` -- including a
crash between the temporary-file write and the rename -- the
destination holds either the complete previous content or the complete
new content, never a truncated mixture, and a destination that existed
before the write is never absent. -/
theorem atomicWrite_destination_integrity (old : Option String) (data : String)
    (s : FilePairState) (h : AtomicWriteReachable old data s) :
    (s.dest = old ∨ s.dest = some data) ∧ (old ≠ none → s.dest ≠ none) := by
  cases h with
  | start => exact ⟨Or.inl rfl, fun ho => ho⟩
  | midTmpWrite t ht => exact ⟨Or.inl rfl, fun ho => ho⟩
  | renamed => exact ⟨Or.inr rfl, fun _ => by simp⟩

/-- C3 witness: the state crashed between temp write and rename, with
the old destination `"old"` and half of the new text in the temp file,
still shows the full old content at the destination. -/
theorem atomicWrite_destination_integrity_witness :
    AtomicWriteReachable (some "old") "new-content" ⟨some "old", some "new-"⟩ ∧
    ((some "old" : Option String) = some "old" ∨
      (some "old" : Option String) = some "new-content") ∧
    ((some "old" : Option String) ≠ none → (some "old" : Option String) ≠ none) := by
  have hreach : AtomicWriteReachable (some "old") "new-content"
      ⟨some "old", some "new-"⟩ :=
    AtomicWriteReachable.midTmpWrite "new-" (by decide)
  exact ⟨hreach,
    atomicWrite_destination_integrity (some "old") "new-content" _ hreach⟩

lemma charToNat_inj (a b : Char) (h : a.toNat = b.toNat) : a = b := by
  exact_mod_cast Char.ofNat_toNat a ▸ Char.ofNat_toNat b ▸ congrArg Char.ofNat h

lemma charListLe_total : ∀ xs ys : List Char,
    charListLe xs ys = true ∨ charListLe ys xs = true
  | [], _ => Or.inl rfl
  | _ :: _, [] => Or.inr rfl
  | a :: as, b :: bs => by
    by_cases hab : a = b
    · subst hab
      simpa [charListLe] using charListLe_total as bs
    · have hne : a.toNat ≠ b.toNat := fun h => hab (charToNat_inj a b h)
      rcases Nat.lt_or_ge a.toNat b.toNat with h | h
      · left; simp [charListLe, hab, h]
      · right
        simp [charListLe, fun hba => hab (Eq.symm hba), Ne.symm hab]
        omega

lemma charListLe_trans : ∀ xs ys zs : List Char,
    charListLe xs ys = true → charListLe ys zs = true → charListLe xs zs = true
  | [], _, _ => fun _ _ => rfl
  | _ :: _, [], _ => fun h _ => by simp [charListLe] at h
  | _ :: _, _ :: _, [] => fun _ h => by simp [charListLe] at h
  | a :: as, b :: bs, c :: cs => by
    intro h1 h2
    by_cases hab : a = b
    · subst hab
      by_cases hac : a = c
      · subst hac
        simp only [charListLe, if_pos rfl] at h1 h2 ⊢
        exact charListLe_trans as bs cs h1 h2
      · simp only [charListLe, if_pos rfl] at h1
        simpa [charListLe, hac] using h2
    · by_cases hbc : b = c
      · subst hbc
        simpa [charListLe, hab] using h1
      · simp only [charListLe, if_neg hab] at h1
        simp only [charListLe, if_neg hbc] at h2
        have hlt1 : a.toNat < b.toNat := by simpa using h1
        have hlt2 : b.toNat < c.toNat := by simpa using h2
        have hac : a ≠ c := by
          intro h
          subst h
          omega
        simp [charListLe, hac]
        omega

lemma charListLe_antisymm : ∀ xs ys : List Char,
    charListLe xs ys = true → charListLe ys xs = true → xs = ys
  | [], [] => fun _ _ => rfl
  | [], _ :: _ => fun _ h => by simp [charListLe] at h
  | _ :: _, [] => fun h _ => by simp [charListLe] at h
  | a :: as, b :: bs => by
    intro h1 h2
    by_cases hab : a = b
    · subst hab
      simp only [charListLe, if_pos rfl] at h1 h2
      rw [charListLe_antisymm as bs h1 h2]
    · simp only [charListLe, if_neg hab, if_neg (Ne.symm hab)] at h1 h2
      have hlt1 : a.toNat < b.toNat := by simpa using h1
      have hlt2 : b.toNat < a.toNat := by simpa using h2
      omega

lemma strLeProp_total (a b : String) : strLeProp a b ∨ strLeProp b a :=
  charListLe_total a.data b.data

lemma strLeProp_trans (a b c : String) :
    strLeProp a b → strLeProp b c → strLeProp a c :=
  charListLe_trans a.data b.data c.data

lemma strLeProp_antisymm (a b : String) :
    strLeProp a b → strLeProp b a → a = b := by
  intro h1 h2
  have hd := charListLe_antisymm a.data b.data h1 h2
  cases a
  cases b
  exact congrArg String.mk hd

instance : IsTotal String strLeProp := ⟨strLeProp_total⟩

instance : IsTrans String strLeProp := ⟨strLeProp_trans⟩

instance : IsAntisymm String strLeProp := ⟨strLeProp_antisymm⟩

instance : IsTotal String byBasename :=
  ⟨fun a b => strLeProp_total (basenameOf a) (basenameOf b)⟩

instance : IsTrans String byBasename :=
  ⟨fun a b c => strLeProp_trans (basenameOf a) (basenameOf b) (basenameOf c)⟩

/-- A permutation whose image under `f` is pointwise equal and
duplicate-free is an equality. -/
lemma perm_eq_of_map_eq_of_nodup {α β : Type} (f : α → β) :
    ∀ l₁ l₂ : List α, l₁.Perm l₂ → l₁.map f = l₂.map f →
      (l₁.map f).Nodup → l₁ = l₂
  | [], l₂ => by
    intro hperm _ _
    rw [hperm.nil_eq]
  | a :: t₁, l₂ => by
    intro hperm hmap hnodup
    cases l₂ with
    | nil => exact absurd hperm.symm.nil_eq (by simp)
    | cons b t₂ =>
      simp only [List.map_cons, List.cons.injEq] at hmap
      obtain ⟨hfab, hmapt⟩ := hmap
      by_cases hab : a = b
      · subst hab
        rw [perm_eq_of_map_eq_of_nodup f t₁ t₂ hperm.cons_inv hmapt
          (by simpa using hnodup.of_cons)]
      · exfalso
        have hat2 : a ∈ t₂ := by
          have := hperm.subset (List.mem_cons_self a t₁)
          rcases List.mem_cons.mp this with h | h
          · exact absurd h hab
          · exact h
        have h1 : f a ∈ t₂.map f := List.mem_map_of_mem f hat2
        rw [← hmapt] at h1
        have h2 : f a ∉ t₁.map f := by
          have := hnodup
          simp only [List.map_cons, List.nodup_cons] at this
          exact this.1
        exact h2 h1

/-- C9: the records returned by a multi-file import are ordered by
source filename (basename comparison): the processing order is the
basename-sorted permutation of the selection, hence the record file
names are sorted, and--when the basenames are pairwise distinct--the
result does not depend on the selection order. -/
theorem import_records_sorted_by_filename (idGen : Nat → String)
    (filePaths : List String) :
    (importAssets idGen filePaths).map (fun r => r.originalFileName) =
      (importOrder filePaths).map basenameOf ∧
    List.Sorted strLeProp ((importAssets idGen filePaths).map
      (fun r => r.originalFileName)) ∧
    (importOrder filePaths).Perm filePaths ∧
    (∀ filePaths₂, filePaths₂.Perm filePaths →
      (filePaths.map basenameOf).Nodup →
      importOrder filePaths₂ = importOrder filePaths) := by
  have hloop : ∀ (n : Nat) (l : List String),
      (importLoop idGen n l).map (fun r => r.originalFileName) =
        l.map basenameOf := by
    intro n l
    induction l generalizing n with
    | nil => rfl
    | cons p rest ih => simp [importLoop, ih]
  have hmap : (importAssets idGen filePaths).map (fun r => r.originalFileName) =
      (importOrder filePaths).map basenameOf := hloop 0 _
  have hsortedBase : List.Sorted byBasename (importOrder filePaths) :=
    List.sorted_insertionSort byBasename filePaths
  have hperm : (importOrder filePaths).Perm filePaths :=
    List.perm_insertionSort byBasename filePaths
  have hmapsorted : List.Sorted strLeProp ((importOrder filePaths).map basenameOf) :=
    List.Pairwise.map basenameOf (fun _ _ h => h) hsortedBase
  refine ⟨hmap, ?_, hperm, ?_⟩
  · rw [hmap]
    exact hmapsorted
  · intro l₂ hperm₂ hnodup
    have hsorted₂ : List.Sorted byBasename (importOrder l₂) :=
      List.sorted_insertionSort byBasename l₂
    have hmapsorted₂ : List.Sorted strLeProp ((importOrder l₂).map basenameOf) :=
      List.Pairwise.map basenameOf (fun _ _ h => h) hsorted₂
    have hperm₂s : (importOrder l₂).Perm (importOrder filePaths) :=
      (List.perm_insertionSort byBasename l₂).trans
        (hperm₂.trans hperm.symm)
    have hmapeq : (importOrder l₂).map basenameOf =
        (importOrder filePaths).map basenameOf :=
      List.eq_of_perm_of_sorted (hperm₂s.map basenameOf) hmapsorted₂ hmapsorted
    have hnodup₂ : ((importOrder l₂).map basenameOf).Nodup := by
      have hp : ((importOrder l₂).map basenameOf).Perm (filePaths.map basenameOf) :=
        ((List.perm_insertionSort byBasename l₂).trans hperm₂).map basenameOf
      exact hp.nodup_iff.mpr hnodup
    exact perm_eq_of_map_eq_of_nodup basenameOf _ _ hperm₂s hmapeq hnodup₂

/-- C9 witness: importing the selection `["b.png", "a.png"]` in that
order yields records ordered `a.png` then `b.png`, and the permuted
selection produces the same processing order. -/
theorem import_records_sorted_by_filename_witness :
    (importAssets (fun n => toString n) ["b.png", "a.png"]).map
      (fun r => r.originalFileName) = ["a.png", "b.png"] ∧
    importOrder ["a.png", "b.png"] = importOrder ["b.png", "a.png"] ∧
    importAssets (fun n => toString n) ["b.png", "a.png"] =
      [{ assetId := "0", originalFileName := "a.png" },
       { assetId := "1", originalFileName := "b.png" }] := by
  have h := import_records_sorted_by_filename (fun n => toString n)
    ["b.png", "a.png"]
  refine ⟨?_, ?_, by decide⟩
  · rw [h.1]
    decide
  · exact h.2.2.2 ["a.png", "b.png"] (List.Perm.swap "b.png" "a.png" [])
      (by decide)

/-- C10: the playback cursor always stays inside
`[0, max 0 (timeline.length − 1)]` of the loaded section: every
operation preserves the invariant, `next` clamps at the last item,
`prev` clamps at 0, `stop` resets to 0, `loadSection` resets to 0
exactly when the section changes (clamping otherwise), and on an empty
timeline `next`, `prev`, `gotoIndex` and `current` all return
`undefined` without moving the cursor. -/
theorem timeline_cursor_stays_in_range :
    cursorInv initPlayer ∧
    (∀ p sid sections p2, cursorInv p →
      loadSection p sid sections = .ok p2 → cursorInv p2) ∧
    (∀ p r, cursorInv p → nextItem p = .ok r → cursorInv r.2) ∧
    (∀ p r, cursorInv p → prevItem p = .ok r → cursorInv r.2) ∧
    (∀ p i r, cursorInv p → gotoIndex p i = .ok r → cursorInv r.2) ∧
    (∀ p p2, cursorInv p → stopPlayer p = .ok p2 →
      p2.index = 0 ∧ cursorInv p2) ∧
    (∀ p sect, p.loadedSection = some sect → 0 < sect.timeline.length →
      p.index = (sect.timeline.length : Int) - 1 →
      ∃ r, nextItem p = .ok r ∧ r.2.index = p.index) ∧
    (∀ p sect, p.loadedSection = some sect → 0 < sect.timeline.length →
      p.index = 0 → ∃ r, prevItem p = .ok r ∧ r.2.index = 0) ∧
    (∀ p sect, p.loadedSection = some sect → sect.timeline.length = 0 →
      nextItem p = .ok (none, p) ∧ prevItem p = .ok (none, p) ∧
      (∀ i, gotoIndex p i = .ok (none, p)) ∧ currentItem p = none) ∧
    (∀ p sid sections sect old,
      sections.find? (fun item => item.id = sid) = some sect →
      p.loadedSection = some old → old.id = sect.id →
      0 < sect.timeline.length →
      loadSection p sid sections =
        .ok { p with loadedSection := some sect,
                     index := min p.index ((sect.timeline.length : Int) - 1) }) ∧
    (∀ p sid sections sect,
      sections.find? (fun item => item.id = sid) = some sect →
      (∀ old, p.loadedSection = some old → old.id ≠ sect.id) →
      loadSection p sid sections =
        .ok { p with loadedSection := some sect, index := 0,
                     status := .stopped }) := by
  refine ⟨⟨le_refl 0, rfl⟩, ?_, ?_, ?_, ?_, ?_, ?_, ?_, ?_, ?_, ?_⟩
  · -- loadSection preserves the invariant
    intro p sid sections p2 hinv heq
    obtain ⟨pm, posec, pidx, pstat⟩ := p
    obtain ⟨hge, hmatch⟩ := hinv
    have hge2 : (0 : Int) ≤ pidx := hge
    cases hfind : sections.find? (fun item => item.id = sid) with
    | none => simp [loadSection, hfind] at heq
    | some sect =>
      cases posec with
      | none =>
        simp only [loadSection, hfind] at heq
        injection heq with h
        subst h
        exact ⟨le_refl 0, by show (0 : Int) ≤ maxIndexOf sect; unfold maxIndexOf; omega⟩
      | some old =>
        by_cases hid : old.id = sect.id
        · simp only [loadSection, hfind, hid, ne_eq, decide_not] at heq
          simp only [decide_True, Bool.not_true, Bool.false_eq_true, if_false] at heq
          by_cases hlen : sect.timeline.length = 0
          · rw [if_pos hlen] at heq
            injection heq with h
            subst h
            exact ⟨le_refl 0, by show (0 : Int) ≤ maxIndexOf sect; unfold maxIndexOf; omega⟩
          · rw [if_neg hlen] at heq
            injection heq with h
            subst h
            refine ⟨?_, ?_⟩
            · show (0 : Int) ≤ min pidx ((sect.timeline.length : Int) - 1)
              omega
            · show min pidx ((sect.timeline.length : Int) - 1) ≤ maxIndexOf sect
              unfold maxIndexOf
              omega
        · simp only [loadSection, hfind, ne_eq, decide_not] at heq
          rw [if_pos (by simp [hid])] at heq
          injection heq with h
          subst h
          exact ⟨le_refl 0, by show (0 : Int) ≤ maxIndexOf sect; unfold maxIndexOf; omega⟩
  · -- next preserves the invariant
    intro p r hinv heq
    obtain ⟨pm, posec, pidx, pstat⟩ := p
    obtain ⟨hge, hmatch⟩ := hinv
    have hge2 : (0 : Int) ≤ pidx := hge
    cases posec with
    | none => simp [nextItem] at heq
    | some sect =>
      have hm : pidx ≤ maxIndexOf sect := hmatch
      unfold maxIndexOf at hm
      by_cases hlen : sect.timeline.length = 0
      · simp only [nextItem, hlen, if_pos] at heq
        injection heq with h
        subst h
        exact ⟨hge, hmatch⟩
      · simp only [nextItem, if_neg hlen] at heq
        injection heq with h
        subst h
        refine ⟨?_, ?_⟩
        · show (0 : Int) ≤ min (pidx + 1) ((sect.timeline.length : Int) - 1)
          omega
        · show min (pidx + 1) ((sect.timeline.length : Int) - 1) ≤ maxIndexOf sect
          unfold maxIndexOf
          omega
  · -- prev preserves the invariant
    intro p r hinv heq
    obtain ⟨pm, posec, pidx, pstat⟩ := p
    obtain ⟨hge, hmatch⟩ := hinv
    have hge2 : (0 : Int) ≤ pidx := hge
    cases posec with
    | none => simp [prevItem] at heq
    | some sect =>
      have hm : pidx ≤ maxIndexOf sect := hmatch
      unfold maxIndexOf at hm
      by_cases hlen : sect.timeline.length = 0
      · simp only [prevItem, hlen, if_pos] at heq
        injection heq with h
        subst h
        exact ⟨hge, hmatch⟩
      · simp only [prevItem, if_neg hlen] at heq
        injection heq with h
        subst h
        refine ⟨?_, ?_⟩
        · show (0 : Int) ≤ max 0 (pidx - 1)
          omega
        · show max 0 (pidx - 1) ≤ maxIndexOf sect
          unfold maxIndexOf
          omega
  · -- gotoIndex preserves the invariant
    intro p i r hinv heq
    obtain ⟨pm, posec, pidx, pstat⟩ := p
    obtain ⟨hge, hmatch⟩ := hinv
    have hge2 : (0 : Int) ≤ pidx := hge
    cases posec with
    | none => simp [gotoIndex] at heq
    | some sect =>
      have hm : pidx ≤ maxIndexOf sect := hmatch
      unfold maxIndexOf at hm
      by_cases hlen : sect.timeline.length = 0
      · simp only [gotoIndex, hlen, if_pos] at heq
        injection heq with h
        subst h
        exact ⟨hge, hmatch⟩
      · simp only [gotoIndex, if_neg hlen] at heq
        injection heq with h
        subst h
        refine ⟨?_, ?_⟩
        · show (0 : Int) ≤ max 0 (min i ((sect.timeline.length : Int) - 1))
          omega
        · show max 0 (min i ((sect.timeline.length : Int) - 1)) ≤ maxIndexOf sect
          unfold maxIndexOf
          omega
  · -- stop resets the cursor to 0
    intro p p2 hinv heq
    obtain ⟨pm, posec, pidx, pstat⟩ := p
    cases posec with
    | none => simp [stopPlayer] at heq
    | some sect =>
      simp only [stopPlayer] at heq
      injection heq with h
      subst h
      exact ⟨rfl, le_refl 0,
        by show (0 : Int) ≤ maxIndexOf sect; unfold maxIndexOf; omega⟩
  · -- next at the last item stays there
    intro p sect hold hlen hidx
    obtain ⟨pm, posec, pidx, pstat⟩ := p
    have hold2 : posec = some sect := hold
    subst hold2
    have hidx2 : pidx = (sect.timeline.length : Int) - 1 := hidx
    have hlen0 : ¬sect.timeline.length = 0 := by omega
    refine ⟨(currentItem
        ⟨pm, some sect, min (pidx + 1) ((sect.timeline.length : Int) - 1), pstat⟩,
      ⟨pm, some sect, min (pidx + 1) ((sect.timeline.length : Int) - 1), pstat⟩),
      ?_, ?_⟩
    · simp only [nextItem, if_neg hlen0]
    · show min (pidx + 1) ((sect.timeline.length : Int) - 1) = pidx
      omega
  · -- prev at 0 stays at 0
    intro p sect hold hlen hidx
    obtain ⟨pm, posec, pidx, pstat⟩ := p
    have hold2 : posec = some sect := hold
    subst hold2
    have hidx2 : pidx = 0 := hidx
    have hlen0 : ¬sect.timeline.length = 0 := by omega
    refine ⟨(currentItem ⟨pm, some sect, max 0 (pidx - 1), pstat⟩,
      ⟨pm, some sect, max 0 (pidx - 1), pstat⟩), ?_, ?_⟩
    · simp only [prevItem, if_neg hlen0]
    · show max 0 (pidx - 1) = 0
      omega
  · -- empty timeline: undefined results, cursor untouched
    intro p sect hold hlen
    obtain ⟨pm, posec, pidx, pstat⟩ := p
    have hold2 : posec = some sect := hold
    subst hold2
    have hnil : sect.timeline = [] := List.length_eq_zero.mp hlen
    refine ⟨?_, ?_, ?_, ?_⟩
    · simp only [nextItem, hlen, if_pos]
    · simp only [prevItem, hlen, if_pos]
    · intro i
      simp only [gotoIndex, hlen, if_pos]
    · simp [currentItem, hnil]
  · -- loadSection with the same section id clamps without resetting
    intro p sid sections sect old hfind hold hid hlen
    obtain ⟨pm, posec, pidx, pstat⟩ := p
    have hold2 : posec = some old := hold
    subst hold2
    have hlen0 : ¬sect.timeline.length = 0 := by omega
    simp only [loadSection, hfind, hid, ne_eq, decide_not, decide_True,
      Bool.not_true, Bool.false_eq_true, if_false, if_neg hlen0]
  · -- loadSection with a changed section resets to 0 and stops
    intro p sid sections sect hfind hchanged
    obtain ⟨pm, posec, pidx, pstat⟩ := p
    cases posec with
    | none => simp [loadSection, hfind]
    | some old =>
      have hne : old.id ≠ sect.id := hchanged old rfl
      simp only [loadSection, hfind, ne_eq, decide_not]
      rw [if_pos (by simp [hne])]

/-- C10 witness: on a two-item section `next` at the last item stays at
index 1, on an empty section `next` returns `undefined` and leaves the
player untouched, and the fresh player satisfies the invariant. -/
theorem timeline_cursor_stays_in_range_witness :
    (∃ r, nextItem ⟨.manual, some sampleSectionTwo, 1, .stopped⟩ = .ok r ∧
      r.2.index = 1) ∧
    nextItem ⟨.manual, some sampleSectionEmpty, 0, .stopped⟩ =
      .ok (none, ⟨.manual, some sampleSectionEmpty, 0, .stopped⟩) ∧
    cursorInv initPlayer := by
  have h := timeline_cursor_stays_in_range
  refine ⟨?_, ?_, h.1⟩
  · exact h.2.2.2.2.2.2.1 ⟨.manual, some sampleSectionTwo, 1, .stopped⟩
      sampleSectionTwo rfl (by decide) (by decide)
  · exact (h.2.2.2.2.2.2.2.2.1 ⟨.manual, some sampleSectionEmpty, 0, .stopped⟩
      sampleSectionEmpty rfl (by decide)).1

lemma decodeList_map {α : Type} (enc : α → Json) (dec : Json → Option α)
    (h : ∀ a, dec (enc a) = some a) :
    ∀ xs : List α, decodeList dec (xs.map enc) = some xs := by
  intro xs
  induction xs with
  | nil => rfl
  | cons a t ih => simp [decodeList, h a, ih]

lemma decodeKVList_map {α : Type} (enc : α → Json) (dec : Json → Option α)
    (h : ∀ a, dec (enc a) = some a) :
    ∀ xs : List (String × α),
      decodeKVList dec (xs.map fun kv => (kv.1, enc kv.2)) = some xs := by
  intro xs
  induction xs with
  | nil => rfl
  | cons a t ih => simp [decodeKVList, h a.2, ih]

lemma decodeAssetMeta_encode (a : AssetMeta) :
    decodeAssetMeta (encodeAssetMeta a) = some a := by
  simp [decodeAssetMeta, encodeAssetMeta, getStr, getNum, Json.get, List.find?]

lemma decodeMusicItem_encode (x : MusicItem) :
    decodeMusicItem (encodeMusicItem x) = some x := by
  simp [decodeMusicItem, encodeMusicItem, getStr, getNum, getBool, Json.get,
    List.find?]

lemma decodeDialogueItem_encode (x : DialogueItem) :
    decodeDialogueItem (encodeDialogueItem x) = some x := by
  simp [decodeDialogueItem, encodeDialogueItem, getStr, getNum, Json.get,
    List.find?]

lemma decodeDialogueLine_encode (x : DialogueLine) :
    decodeDialogueLine (encodeDialogueLine x) = some x := by
  simp [decodeDialogueLine, encodeDialogueLine, getStr, Json.get, List.find?]

lemma decodeCrop_encode (c : Crop) : decodeCrop (encodeCrop c) = some c := by
  simp [decodeCrop, encodeCrop, getNum, Json.get, List.find?]

lemma decodeFitMode_str (f : FitMode) : decodeFitMode (fitModeStr f) = some f := by
  cases f <;> rfl

lemma decodeSizePreset_str (f : SizePreset) :
    decodeSizePreset (sizePresetStr f) = some f := by
  cases f <;> rfl

lemma decodePanDirection_str (f : PanDirection) :
    decodePanDirection (panDirectionStr f) = some f := by
  cases f <;> rfl

lemma decodeMediaTile_encode (t : MediaTile) :
    decodeMediaTile (encodeMediaTile t) = some t := by
  cases hc : t.crop with
  | none =>
    cases t
    simp only at hc
    subst hc
    simp [decodeMediaTile, encodeMediaTile, getStr, Json.get, List.find?,
      decodeFitMode_str, decodeSizePreset_str]
  | some c =>
    cases t
    simp only at hc
    subst hc
    simp [decodeMediaTile, encodeMediaTile, getStr, Json.get, List.find?,
      decodeFitMode_str, decodeSizePreset_str, decodeCrop_encode]

lemma decodeSlideItem_encode (x : SlideItem) :
    decodeSlideItem (encodeSlideItem x) = some x := by
  simp [decodeSlideItem, encodeSlideItem, getStr, getNum, getArr, Json.get,
    List.find?, decodePanDirection_str,
    decodeList_map encodeDialogueItem decodeDialogueItem decodeDialogueItem_encode,
    decodeList_map encodeDialogueLine decodeDialogueLine decodeDialogueLine_encode]

lemma decodeVideoItem_encode (x : VideoItem) :
    decodeVideoItem (encodeVideoItem x) = some x := by
  cases he : x.endTime with
  | none =>
    cases x
    simp only at he
    subst he
    simp [decodeVideoItem, encodeVideoItem, getStr, getNum, getOptNum, Json.get,
      List.find?]
  | some t =>
    cases x
    simp only at he
    subst he
    simp [decodeVideoItem, encodeVideoItem, getStr, getNum, getOptNum, Json.get,
      List.find?]

lemma decodePageBreakItem_encode (x : PageBreakItem) :
    decodePageBreakItem (encodePageBreakItem x) = some x := by
  simp [decodePageBreakItem, encodePageBreakItem, getStr, getArr, Json.get,
    List.find?, decodeList_map encodeMediaTile decodeMediaTile decodeMediaTile_encode]

lemma decodeTimelineItem_encode (x : TimelineItem) :
    decodeTimelineItem (encodeTimelineItem x) = some x := by
  cases x with
  | slide s =>
    have htype : getStr (encodeSlideItem s) "type" = some "slide" := by
      simp [encodeSlideItem, getStr, Json.get, List.find?]
    simp [decodeTimelineItem, encodeTimelineItem, htype, decodeSlideItem_encode]
  | video v =>
    have htype : getStr (encodeVideoItem v) "type" = some "video" := by
      simp [encodeVideoItem, getStr, Json.get, List.find?]
    simp [decodeTimelineItem, encodeTimelineItem, htype, decodeVideoItem_encode]
  | pageBreak p =>
    have htype : getStr (encodePageBreakItem p) "type" = some "pageBreak" := by
      simp [encodePageBreakItem, getStr, Json.get, List.find?]
    simp [decodeTimelineItem, encodeTimelineItem, htype, decodePageBreakItem_encode]

lemma decodeSectionSettings_encode (x : SectionSettings) :
    decodeSectionSettings (encodeSectionSettings x) = some x := by
  cases hd : x.defaultTransition with
  | none =>
    cases hi : x.idlePanDefaults with
    | none =>
      cases x
      simp only at hd hi
      subst hd
      subst hi
      simp [decodeSectionSettings, encodeSectionSettings, getOptStr, Json.get,
        List.find?]
    | some b =>
      cases x
      simp only at hd hi
      subst hd
      subst hi
      simp [decodeSectionSettings, encodeSectionSettings, getOptStr, Json.get,
        List.find?]
  | some a =>
    cases hi : x.idlePanDefaults with
    | none =>
      cases x
      simp only at hd hi
      subst hd
      subst hi
      simp [decodeSectionSettings, encodeSectionSettings, getOptStr, Json.get,
        List.find?]
    | some b =>
      cases x
      simp only at hd hi
      subst hd
      subst hi
      simp [decodeSectionSettings, encodeSectionSettings, getOptStr, Json.get,
        List.find?]

lemma decodeSection_encode (x : Section) :
    decodeSection (encodeSection x) = some x := by
  cases hs : x.settings with
  | none =>
    cases x
    simp only at hs
    subst hs
    simp [decodeSection, encodeSection, getStr, getNum, getArr, Json.get,
      List.find?,
      decodeList_map encodeMusicItem decodeMusicItem decodeMusicItem_encode,
      decodeList_map encodeTimelineItem decodeTimelineItem decodeTimelineItem_encode]
  | some st =>
    cases x
    simp only at hs
    subst hs
    simp [decodeSection, encodeSection, getStr, getNum, getArr, Json.get,
      List.find?, decodeSectionSettings_encode,
      decodeList_map encodeMusicItem decodeMusicItem decodeMusicItem_encode,
      decodeList_map encodeTimelineItem decodeTimelineItem decodeTimelineItem_encode]

lemma decodeManifest_encode (m : ProjectManifest) :
    decodeManifest (encodeManifest m) = some m := by
  simp [decodeManifest, encodeManifest, getStr, getNum, getArr, getEntries,
    Json.get, List.find?,
    decodeList_map encodeSection decodeSection decodeSection_encode,
    decodeKVList_map encodeAssetMeta decodeAssetMeta decodeAssetMeta_encode]

/-- C8: `save` then `open` on the same project directory yields exactly
the saved JSON, which reads back as a manifest deep-equal to the input
except that `updatedAt` is replaced by the save timestamp; across two
successive saves with a nondecreasing clock, `updatedAt` advances
monotonically. -/
theorem save_open_roundtrip (st : OpsState) (projectPath : String)
    (m : ProjectManifest) (now : String) :
    (openOp (saveOp st projectPath m now).2 (some projectPath)).1 =
      .ok (encodeManifest { m with updatedAt := now }) ∧
    decodeManifest (encodeManifest { m with updatedAt := now }) =
      some { m with updatedAt := now } ∧
    ({ m with updatedAt := now } : ProjectManifest).schemaVersion =
      m.schemaVersion ∧
    ({ m with updatedAt := now } : ProjectManifest).createdAt = m.createdAt ∧
    ({ m with updatedAt := now } : ProjectManifest).sections = m.sections ∧
    ({ m with updatedAt := now } : ProjectManifest).assetRegistry =
      m.assetRegistry ∧
    ({ m with updatedAt := now } : ProjectManifest).updatedAt = now ∧
    (∀ (m₂ : ProjectManifest) (now₂ : String),
      (openOp (saveOp (saveOp st projectPath m now).2 projectPath m₂ now₂).2
          (some projectPath)).1 =
        .ok (encodeManifest { m₂ with updatedAt := now₂ }) ∧
      (strLeProp now now₂ →
        strLeProp ({ m with updatedAt := now } : ProjectManifest).updatedAt
          ({ m₂ with updatedAt := now₂ } : ProjectManifest).updatedAt)) := by
  refine ⟨?_, decodeManifest_encode _, rfl, rfl, rfl, rfl, rfl, ?_⟩
  · simp [saveOp, openOp, writeLogOp]
  · intro m₂ now₂
    constructor
    · simp [saveOp, openOp, writeLogOp]
    · intro h
      exact h

/-- C8 witness: saving the concrete manifest at a concrete timestamp
and opening it back yields its JSON image, and that image decodes to
the manifest with only `updatedAt` replaced. -/
theorem save_open_roundtrip_witness :
    (openOp (saveOp ⟨none, emptyAutosaveDir, []⟩ "/p" sampleManifest
        "2026-02-02T00:00:00.000Z").2 (some "/p")).1 =
      .ok (encodeManifest
        { sampleManifest with updatedAt := "2026-02-02T00:00:00.000Z" }) ∧
    decodeManifest (encodeManifest
        { sampleManifest with updatedAt := "2026-02-02T00:00:00.000Z" }) =
      some { sampleManifest with updatedAt := "2026-02-02T00:00:00.000Z" } ∧
    ({ sampleManifest with
        updatedAt := "2026-02-02T00:00:00.000Z" } : ProjectManifest).sections =
      sampleManifest.sections := by
  have h := save_open_roundtrip ⟨none, emptyAutosaveDir, []⟩ "/p" sampleManifest
    "2026-02-02T00:00:00.000Z"
  exact ⟨h.1, h.2.1, h.2.2.2.2.1⟩

/-- C6 counterexample: a successful `project:open` appends no line to
the event log, refuting the claim that every successful
create/open/save/autosave/recover appends exactly one line. -/
theorem open_appends_no_log_line_counterexample :
    (openOp ⟨some (encodeManifest (defaultManifest "t0" "s1")),
        emptyAutosaveDir, []⟩ (some "/p")).1 =
      .ok (encodeManifest (defaultManifest "t0" "s1")) ∧
    (openOp ⟨some (encodeManifest (defaultManifest "t0" "s1")),
        emptyAutosaveDir, []⟩ (some "/p")).2.logLines = [] ∧
    ¬((openOp ⟨some (encodeManifest (defaultManifest "t0" "s1")),
        emptyAutosaveDir, []⟩ (some "/p")).2.logLines.length =
      ([] : List String).length + 1) := by
  refine ⟨rfl, rfl, ?_⟩
  intro h
  simp [openOp] at h

/-- C6 amended: every successful `create`, `save`, `autosave` and
`recover` appends exactly one `<timestamp> <operation> <argument>`
line to `logs/events.log`; a successful `open` appends none (and a
failed recover appends none). -/
theorem event_log_one_line_per_operation :
    (∀ st now sid projectPath,
      (createOp st (some projectPath) now sid).2.logLines =
        st.logLines ++ [now ++ " " ++ ("project:create " ++ projectPath)]) ∧
    (∀ st dlg j, (openOp st dlg).1 = .ok j →
      (openOp st dlg).2.logLines = st.logLines) ∧
    (∀ st projectPath m now,
      (saveOp st projectPath m now).2.logLines =
        st.logLines ++
          [now ++ " " ++ ("project:save " ++ (projectPath ++ "/manifest.json"))]) ∧
    (∀ serialize st projectPath m now,
      (autosaveOp serialize st projectPath m now).2.logLines =
        st.logLines ++
          [now ++ " " ++ ("project:autosave " ++
            (projectPath ++ "/autosave/autosave_latest.json"))]) ∧
    (∀ st dir projectPath now j p, (recover dir).1 = .ok (j, p) →
      (recoverOp st dir projectPath now).2.logLines =
        st.logLines ++ [now ++ " " ++ ("project:recover " ++ p)]) ∧
    (∀ st dir projectPath now e, (recover dir).1 = .error e →
      (recoverOp st dir projectPath now).2.logLines = st.logLines) := by
  refine ⟨?_, ?_, ?_, ?_, ?_, ?_⟩
  · intro st now sid projectPath
    simp [createOp, writeLogOp]
  · intro st dlg j hok
    cases dlg with
    | none => simp [openOp] at hok
    | some d =>
      cases hm : st.manifestFile with
      | none => simp [openOp, hm] at hok
      | some mj => simp [openOp, hm]
  · intro st projectPath m now
    simp [saveOp, writeLogOp]
  · intro serialize st projectPath m now
    simp [autosaveOp, writeLogOp]
  · intro st dir projectPath now j p hok
    rcases hrd : recover dir with ⟨r, d2⟩
    rw [hrd] at hok
    simp only at hok
    subst hok
    simp [recoverOp, hrd, writeLogOp]
  · intro st dir projectPath now e herr
    rcases hrd : recover dir with ⟨r, d2⟩
    rw [hrd] at herr
    simp only at herr
    subst herr
    simp [recoverOp, hrd]

/-- C6 witness: on concrete states, `create` and a successful `recover`
each append exactly their one line, and a successful `open` appends
none. -/
theorem event_log_one_line_per_operation_witness :
    (createOp ⟨none, emptyAutosaveDir, []⟩ (some "/p") "t1" "s1").2.logLines =
      ["t1 project:create /p"] ∧
    (openOp ⟨some (sampleManifestJson 1), emptyAutosaveDir, ["l"]⟩
      (some "/p")).2.logLines = ["l"] ∧
    (recoverOp ⟨none, emptyAutosaveDir, []⟩ (some sampleAutosaveDir)
      "/p" "t2").2.logLines = ["t2 project:recover autosave_001.json"] := by
  have h := event_log_one_line_per_operation
  refine ⟨?_, ?_, ?_⟩
  · rw [h.1 ⟨none, emptyAutosaveDir, []⟩ "t1" "s1" "/p"]
    rfl
  · exact h.2.1 ⟨some (sampleManifestJson 1), emptyAutosaveDir, ["l"]⟩
      (some "/p") (sampleManifestJson 1) rfl
  · rw [h.2.2.2.2.1 ⟨none, emptyAutosaveDir, []⟩ (some sampleAutosaveDir)
      "/p" "t2" (sampleManifestJson 2) "autosave_001.json" rfl]
    rfl

end BeAHero
